import Mathlib

/-!
# fx: application construction, option routing and start/stop

A shallow embedding of `src/app.go` (package `fx`).

* A Go `*App` is an `App` record.  The children an App points to are owned by
  it alone, so they are held inline in `children`; the back pointer `parent`
  and the identity of an App are addresses (`addr`, the path of child indices
  from the root App).
* Everything the file calls but does not define is a field of `Env`: the
  dependency container (`go.uber.org/dig`), the hook sequence
  (`internal/lifecycle`), the registered error handlers and `fmt`.  Their
  state is an abstract world `W`, threaded through every call.
* `Sys.trace` records, in order, every call made to one of these
  collaborators, so that "is called", "is not called" and "in order" can be
  stated.
* Log output (`app.logger.Printf`, `PrintProvide`, ...) is not modelled.
* Constructor and invocation values range over non-nil Go values.
-/

namespace Fx

/-- A Go `time.Duration`, in nanoseconds. -/
abbrev Duration := Int

/-- Go `DefaultTimeout = 15 * time.Second`. -/
def DefaultTimeout : Duration := 15 * 1000000000

/-- A Go `error` value (non-nil).  `ext` is an error made outside this file or
by `fmt.Errorf`, identified by its message; `append` is the aggregate built by
`multierr.Append`; `withGraph` is `errorWithGraph`. -/
inductive GoError where
  | ext (msg : String)
  | append (l r : GoError)
  | withGraph (graph : String) (err : GoError)
  deriving DecidableEq, Repr

/-- The `Error()` method.  For `errorWithGraph` it is `err.err.Error()`; for an
aggregate the messages are joined by `"; "` as `multierr` does. -/
def GoError.Error : GoError → String
  | .ext msg => msg
  | .append l r => l.Error ++ "; " ++ r.Error
  | .withGraph _ err => err.Error

/-- Go `multierr.Append(left, right)`: nil is the unit, two errors are aggregated
left first. -/
def multierrAppend : Option GoError → Option GoError → Option GoError
  | none, right => right
  | some l, none => some l
  | some l, some r => some (.append l r)

/-- Go `multierr.Combine(errs...)`: the aggregate of the non-nil errors, in
order; nil when there is none. -/
def multierrCombine : List (Option GoError) → Option GoError
  | [] => none
  | e :: rest => multierrAppend e (multierrCombine rest)

/-- The result type of a function, as far as `provide` inspects it: it only
asks whether it is `Annotated`. -/
inductive RType where
  | annotated
  | other (id : Nat)
  deriving DecidableEq, Repr

/-- A non-nil `interface{}` handed to `Provide`, `Invoke` or `Decorate`,
classified the way `provide`, `decorate` and `executeInvokes` inspect it. -/
inductive Value where
  /-- a value whose dynamic type implements `Option` -/
  | option (id : Nat)
  /-- an `Annotated{Name, Group, Target}` -/
  | annotated (name group : String) (target : Value)
  /-- a function with the given result types -/
  | func (id : Nat) (outs : List RType)
  /-- any other value -/
  | other (id : Nat)
  /-- Go `func() Lifecycle { return app.lifecycle }` -/
  | lifecycleFunc
  /-- Go `app.shutdowner` -/
  | shutdowner
  /-- Go `app.dotGraph` -/
  | dotGraph
  deriving DecidableEq, Repr

/-- Whether the value is a function one of whose results has type
`Annotated` (the loop over `ft.Out(i)` in `provide` and `decorate`). -/
def Value.returnsAnnotated : Value → Bool
  | .func _ outs => outs.any (fun t => decide (t = RType.annotated))
  | _ => false

/-- A `dig.ProvideOption`. -/
inductive ProvideOption where
  | Name (name : String)
  | Group (group : String)
  deriving DecidableEq, Repr

/-- The value of `app.logger`. -/
inductive LoggerValue where
  /-- Go `fxlog.New()` -/
  | fxlogNew
  /-- Go `&fxlog.Logger{Printer: p}` -/
  | printer (p : Nat)
  /-- Go `fxlog.NewCustomLogger(logger)`, that is `CustomLogger{Logger: logger}` -/
  | customLogger (zap : Nat)
  deriving DecidableEq, Repr

/-- Go `NewCustomLogger` of `internal/fxlog/customlog.go`. -/
def NewCustomLogger (zap : Nat) : LoggerValue := .customLogger zap

/-- A `context.Context` value: `context.Background()`,
`context.WithTimeout(parent, d)`, or a context the caller brings. -/
inductive Context where
  | background
  | withTimeout (parent : Context) (d : Duration)
  | user (id : Nat)
  deriving DecidableEq, Repr

/-- Whether `ctx.Done()` can never be received from: so it is for
`context.Background()` alone. -/
def Context.neverDone : Context → Bool
  | .background => true
  | _ => false

/-- A signal channel made by `make(chan os.Signal, cap)`. -/
structure Chan where
  id : Nat
  cap : Nat
  deriving DecidableEq, Repr

/-- An `os.Signal` value. -/
inductive Signal where
  | SIGINT
  | SIGTERM
  | other (n : Nat)
  deriving DecidableEq, Repr

/-- A call made to a collaborator.  The calls that only allocate a container
or a lifecycle (`dig.New`, `Child`, `lifecycle.New`) are not recorded. -/
inductive Event where
  | provide (container : Nat) (constructor : Value) (opts : List ProvideOption)
  | decorate (container : Nat) (constructor : Value) (opts : List ProvideOption)
  | invoke (container : Nat) (fn : Value)
  | handleError (handler : Nat) (err : GoError)
  | lifecycleStart (lc : Nat) (ctx : Context)
  | lifecycleStop (lc : Nat) (ctx : Context)
  | signalNotify (c : Chan) (sigs : List Signal)
  deriving DecidableEq, Repr

/-- Whether the event is a call of an error handler. -/
def Event.isHandleError : Event → Bool
  | .handleError _ _ => true
  | _ => false

/-- Whether the event is a call of `container.Invoke`. -/
def Event.isInvoke : Event → Bool
  | .invoke _ _ => true
  | _ => false

/-- Whether the event is a call of `container.Provide`. -/
def Event.isProvide : Event → Bool
  | .provide _ _ _ => true
  | _ => false

/-- Whether the event is a call of the lifecycle's `Start` or `Stop`. -/
def Event.isLifecycle : Event → Bool
  | .lifecycleStart _ _ => true
  | .lifecycleStop _ _ => true
  | _ => false

/-- The collaborators of `app.go`, over their own state `W`.  A container, a
lifecycle and an error handler are handles (`Nat`). -/
structure Env (W : Type) where
  /-- Go `dig.New(dig.DeferAcyclicVerification())` -/
  digNew : W → Nat × W
  /-- Go `container.Child(name)` -/
  digChild : Nat → String → W → Nat × W
  /-- Go `container.Provide(constructor, opts...)` -/
  digProvide : Nat → Value → List ProvideOption → W → Option GoError × W
  /-- Go `container.Decorate(constructor, opts...)` -/
  digDecorate : Nat → Value → List ProvideOption → W → Option GoError × W
  /-- Go `container.Invoke(fn)` -/
  digInvoke : Nat → Value → W → Option GoError × W
  /-- Go `dig.CanVisualizeError(err)` -/
  digCanVisualizeError : GoError → Bool
  /-- the text `dig.Visualize(container, &b, dig.VisualizeError(err))` writes -/
  digVisualize : Nat → GoError → W → String
  /-- Go `lifecycle.New(logger)` -/
  lifecycleNew : LoggerValue → W → Nat × W
  /-- Go `lifecycle.Start(ctx)` -/
  lifecycleStart : Nat → Context → W → Option GoError × W
  /-- Go `lifecycle.Stop(ctx)` -/
  lifecycleStop : Nat → Context → W → Option GoError × W
  /-- Go `eh.HandleError(err)` of a registered `ErrorHandler` -/
  handleError : Nat → GoError → W → W
  /-- Go `fmt.Sprintf(format, v)` with one `%v` argument -/
  sprintf : String → Value → String

/-- The collaborators' state together with the record of the calls made. -/
structure Sys (W : Type) where
  world : W
  trace : List Event

/-- The `App` struct.  `donesMu` is a lock and has no counterpart; `addr` is
the identity of the object. -/
structure App where
  err : Option GoError
  container : Nat
  lifecycle : Option Nat
  provides : List Value
  invokes : List Value
  decorators : List Value
  logger : LoggerValue
  startTimeout : Duration
  stopTimeout : Duration
  errorHooks : List Nat
  dones : List Chan
  children : List App
  parent : Option (List Nat)
  addr : List Nat

/-- The functions of dynamic type `optionFunc`: they are made by `Error`,
`StartTimeout`, `StopTimeout` and `Logger` only. -/
inductive OptionFunc where
  | Error (errs : List (Option GoError))
  | StartTimeout (v : Duration)
  | StopTimeout (v : Duration)
  | Logger (p : Nat)

/-- An `Option`, by dynamic type. -/
inductive FxOption where
  | provideOption (constructors : List Value)
  | invokeOption (funcs : List Value)
  | optionFunc (f : OptionFunc)
  | optionGroup (opts : List FxOption)
  | withLoggerOption (logger : Nat)
  | errorHookOption (funcs : List Nat)
  | decorateOption (funcs : List Value)
  | moduleOption (name : String) (options : List FxOption)

/-- Go `Provide(constructors...)`. -/
def Provide (constructors : List Value) : FxOption := .provideOption constructors

/-- Go `Invoke(funcs...)`. -/
def Invoke (funcs : List Value) : FxOption := .invokeOption funcs

/-- Go `Error(errs...)`. -/
def Error (errs : List (Option GoError)) : FxOption := .optionFunc (.Error errs)

/-- Go `Options(opts...)`. -/
def Options (opts : List FxOption) : FxOption := .optionGroup opts

/-- Go `StartTimeout(v)`. -/
def StartTimeout (v : Duration) : FxOption := .optionFunc (.StartTimeout v)

/-- Go `StopTimeout(v)`. -/
def StopTimeout (v : Duration) : FxOption := .optionFunc (.StopTimeout v)

/-- Go `Logger(p)`. -/
def Logger (p : Nat) : FxOption := .optionFunc (.Logger p)

/-- Go `WithLogger(logger)`. -/
def WithLogger (logger : Nat) : FxOption := .withLoggerOption logger

/-- Go `ErrorHook(funcs...)`. -/
def ErrorHook (funcs : List Nat) : FxOption := .errorHookOption funcs

/-- Go `Decorate(funcs...)`. -/
def Decorate (funcs : List Value) : FxOption := .decorateOption funcs

/-- Go `Module(name, opts...)`. -/
def Module (name : String) (opts : List FxOption) : FxOption := .moduleOption name opts

/-- Go `optionFunc.apply`: runs the closure on the App. -/
def OptionFunc.apply {W : Type} (E : Env W) : OptionFunc → App → W → App × W
  | .Error errs, app, w =>
      ({ app with err := multierrAppend app.err (multierrCombine errs) }, w)
  | .StartTimeout v, app, w => ({ app with startTimeout := v }, w)
  | .StopTimeout v, app, w => ({ app with stopTimeout := v }, w)
  | .Logger p, app, w =>
      let lc := E.lifecycleNew (.printer p) w
      ({ app with logger := .printer p, lifecycle := some lc.1 }, lc.2)

/-- The case `invokeOption, errorHookOption, optionFunc` of the type switch in
`moduleOption.apply`. -/
def FxOption.routedToParent : FxOption → Bool
  | .invokeOption _ => true
  | .errorHookOption _ => true
  | .optionFunc _ => true
  | _ => false

/-- The App `moduleOption.apply` allocates:
`&App{parent: a, container: cc, logger: a.logger}`. -/
def newChild (a : App) (cc : Nat) : App :=
  { err := none, container := cc, lifecycle := none, provides := [], invokes := [],
    decorators := [], logger := a.logger, startTimeout := 0, stopTimeout := 0,
    errorHooks := [], dones := [], children := [], parent := some a.addr,
    addr := a.addr ++ [a.children.length] }

mutual
/-- The `apply` method of each option type.  For a module, the child is
appended to `a.children` first, the members are applied to `a` or to the
child, and the slot of the child then holds the child as the members left
it. -/
def FxOption.apply {W : Type} (E : Env W) : FxOption → App → W → App × W
  | .provideOption po, app, w => ({ app with provides := app.provides ++ po }, w)
  | .invokeOption io, app, w => ({ app with invokes := app.invokes ++ io }, w)
  | .optionFunc f, app, w => f.apply E app w
  | .optionGroup og, app, w => applyAll E og app w
  | .withLoggerOption l, app, w =>
      let lc := E.lifecycleNew (NewCustomLogger l) w
      ({ app with lifecycle := some lc.1, logger := NewCustomLogger l }, lc.2)
  | .errorHookOption eho, app, w => ({ app with errorHooks := app.errorHooks ++ eho }, w)
  | .decorateOption d, app, w => ({ app with decorators := app.decorators ++ d }, w)
  | .moduleOption name options, a, w =>
      let cc := E.digChild a.container name w
      let ca := newChild a cc.1
      let r := applyMembers E options { a with children := a.children ++ [ca] } ca cc.2
      ({ r.1 with children := r.1.children.set a.children.length r.2.1 }, r.2.2)
/-- The loop `for _, opt := range opts { opt.apply(app) }` of `New` and of
`optionGroup.apply`. -/
def applyAll {W : Type} (E : Env W) : List FxOption → App → W → App × W
  | [], app, w => (app, w)
  | opt :: rest, app, w =>
      let r := opt.apply E app w
      applyAll E rest r.1 r.2
/-- The loop over `m.options` in `moduleOption.apply`, on the App `a` the
module is applied to and the child `ca`. -/
def applyMembers {W : Type} (E : Env W) : List FxOption → App → App → W → App × App × W
  | [], a, ca, w => (a, ca, w)
  | opt :: rest, a, ca, w =>
      if opt.routedToParent then
        let r := opt.apply E a w
        applyMembers E rest r.1 ca r.2
      else
        let r := opt.apply E ca w
        applyMembers E rest a r.1 r.2
end

/-- Go `App.provide`. -/
def App.provide {W : Type} (E : Env W) (app : App) (constructor : Value) (s : Sys W) :
    App × Sys W :=
  match app.err with
  | some _ => (app, s)
  | none =>
    match constructor with
    | .option _ =>
      ({ app with err := some (.ext (E.sprintf
          "fx.Option should be passed to fx.New directly, not to fx.Provide: fx.Provide received %v"
          constructor)) }, s)
    | .annotated name group target =>
      if 0 < group.length ∧ 0 < name.length then
        ({ app with err := some (.ext (E.sprintf
            "fx.Annotate may not specify both name and group for %v" constructor)) }, s)
      else
        let opts : List ProvideOption :=
          if 0 < name.length then [.Name name]
          else if 0 < group.length then [.Group group] else []
        let r := E.digProvide app.container target opts s.world
        ({ app with err := if r.1.isSome then r.1 else app.err },
         { world := r.2, trace := s.trace ++ [.provide app.container target opts] })
    | c =>
      if c.returnsAnnotated then
        ({ app with err := some (.ext (E.sprintf
            "fx.Annotated should be passed to fx.Provide directly, it should not be returned by the constructor: fx.Provide received %v"
            c)) }, s)
      else
        let r := E.digProvide app.container c [] s.world
        ({ app with err := if r.1.isSome then r.1 else app.err },
         { world := r.2, trace := s.trace ++ [.provide app.container c []] })

/-- Go `App.decorate`. -/
def App.decorate {W : Type} (E : Env W) (app : App) (constructor : Value) (s : Sys W) :
    App × Sys W :=
  match app.err with
  | some _ => (app, s)
  | none =>
    match constructor with
    | .option _ =>
      ({ app with err := some (.ext (E.sprintf
          "fx.Option should be passed to fx.New directly, not to fx.Decorate: fx.Decorate received %v"
          constructor)) }, s)
    | .annotated name group target =>
      if 0 < group.length ∧ 0 < name.length then
        ({ app with err := some (.ext (E.sprintf
            "fx.Annotate may not specify both name and group for %v" constructor)) }, s)
      else
        let opts : List ProvideOption :=
          if 0 < name.length then [.Name name]
          else if 0 < group.length then [.Group group] else []
        let r := E.digDecorate app.container target opts s.world
        ({ app with err := if r.1.isSome then r.1 else app.err },
         { world := r.2, trace := s.trace ++ [.decorate app.container target opts] })
    | c =>
      if c.returnsAnnotated then
        ({ app with err := some (.ext (E.sprintf
            "fx.Annotated should be passed to fx.Decorate directly, it should not be returned by the constructor: fx.Decorate received %v"
            c)) }, s)
      else
        let r := E.digDecorate app.container c [] s.world
        ({ app with err := if r.1.isSome then r.1 else app.err },
         { world := r.2, trace := s.trace ++ [.decorate app.container c []] })

/-- The loop `for _, p := range app.provides { app.provide(p) }`. -/
def provideEach {W : Type} (E : Env W) : List Value → App → Sys W → App × Sys W
  | [], app, s => (app, s)
  | p :: rest, app, s =>
      let r := app.provide E p s
      provideEach E rest r.1 r.2

/-- The loop `for _, d := range app.decorators { app.decorate(d) }`. -/
def decorateEach {W : Type} (E : Env W) : List Value → App → Sys W → App × Sys W
  | [], app, s => (app, s)
  | d :: rest, app, s =>
      let r := app.decorate E d s
      decorateEach E rest r.1 r.2

mutual
/-- Go `provideAll`: the App's own constructors, then each child in turn. -/
def provideAll {W : Type} (E : Env W) : App → Sys W → App × Sys W
  | ⟨err, container, lifecycle, provides, invokes, decorators, logger, startTimeout,
      stopTimeout, errorHooks, dones, children, parent, addr⟩, s =>
      let r := provideEach E provides
        ⟨err, container, lifecycle, provides, invokes, decorators, logger, startTimeout,
          stopTimeout, errorHooks, dones, children, parent, addr⟩ s
      let c := provideAllChildren E children r.2
      ({ r.1 with children := c.1 }, c.2)
/-- The loop `for _, ca := range app.children { provideAll(ca) }`. -/
def provideAllChildren {W : Type} (E : Env W) : List App → Sys W → List App × Sys W
  | [], s => ([], s)
  | ca :: rest, s =>
      let r := provideAll E ca s
      let t := provideAllChildren E rest r.2
      (r.1 :: t.1, t.2)
end

mutual
/-- Go `decorateAll`: the App's own decorators, then each child in turn. -/
def decorateAll {W : Type} (E : Env W) : App → Sys W → App × Sys W
  | ⟨err, container, lifecycle, provides, invokes, decorators, logger, startTimeout,
      stopTimeout, errorHooks, dones, children, parent, addr⟩, s =>
      let r := decorateEach E decorators
        ⟨err, container, lifecycle, provides, invokes, decorators, logger, startTimeout,
          stopTimeout, errorHooks, dones, children, parent, addr⟩ s
      let c := decorateAllChildren E children r.2
      ({ r.1 with children := c.1 }, c.2)
/-- The loop `for _, ca := range app.children { decorateAll(ca) }`. -/
def decorateAllChildren {W : Type} (E : Env W) : List App → Sys W → List App × Sys W
  | [], s => ([], s)
  | ca :: rest, s =>
      let r := decorateAll E ca s
      let t := decorateAllChildren E rest r.2
      (r.1 :: t.1, t.2)
end

/-- One iteration of the loop of `executeInvokes`: the value `err` has after
the `if _, ok := fn.(Option)` statement. -/
def invokeOne {W : Type} (E : Env W) (container : Nat) (fn : Value) (s : Sys W) :
    Option GoError × Sys W :=
  match fn with
  | .option _ =>
    (some (.ext (E.sprintf
      "fx.Option should be passed to fx.New directly, not to fx.Invoke: fx.Invoke received %v"
      fn)), s)
  | _ =>
    let r := E.digInvoke container fn s.world
    (r.1, { world := r.2, trace := s.trace ++ [.invoke container fn] })

/-- The loop of `executeInvokes` over the invocations still to run; `err` is
nil whenever an iteration begins. -/
def executeInvokesFrom {W : Type} (E : Env W) (container : Nat) :
    List Value → Sys W → Option GoError × Sys W
  | [], s => (none, s)
  | fn :: rest, s =>
      let r := invokeOne E container fn s
      match r.1 with
      | some err => (some err, r.2)
      | none => executeInvokesFrom E container rest r.2

/-- Go `App.executeInvokes`. -/
def App.executeInvokes {W : Type} (E : Env W) (app : App) (s : Sys W) :
    Option GoError × Sys W :=
  executeInvokesFrom E app.container app.invokes s

/-- Go `errorHandlerList.HandleError`. -/
def errorHandlerList.HandleError {W : Type} (E : Env W) :
    List Nat → GoError → Sys W → Sys W
  | [], _, s => s
  | eh :: rest, err, s =>
      errorHandlerList.HandleError E rest err
        { world := E.handleError eh err s.world, trace := s.trace ++ [.handleError eh err] }

/-- The App literal of `New`. -/
def New.app (container lc : Nat) : App :=
  { err := none, container := container, lifecycle := some lc, provides := [], invokes := [],
    decorators := [], logger := .fxlogNew, startTimeout := DefaultTimeout,
    stopTimeout := DefaultTimeout, errorHooks := [], dones := [], children := [],
    parent := none, addr := [] }

/-- Go `New` up to and including `decorateAll(app)`. -/
def New.configure {W : Type} (E : Env W) (opts : List FxOption) (w : W) : App × Sys W :=
  let lc := E.lifecycleNew .fxlogNew w
  let c := E.digNew lc.2
  let a := applyAll E opts (New.app c.1 lc.1) c.2
  let p := provideAll E a.1 { world := a.2, trace := [] }
  let p1 := p.1.provide E .lifecycleFunc p.2
  let p2 := p1.1.provide E .shutdowner p1.2
  let p3 := p2.1.provide E .dotGraph p2.2
  decorateAll E p3.1 p3.2

/-- Go `New`, from `if app.err != nil` on. -/
def New.invoke {W : Type} (E : Env W) (cfg : App × Sys W) : App × Sys W :=
  match cfg.1.err with
  | some _ => cfg
  | none =>
    let r := cfg.1.executeInvokes E cfg.2
    match r.1 with
    | none => (cfg.1, r.2)
    | some err =>
      let err2 :=
        if E.digCanVisualizeError err then
          GoError.withGraph (E.digVisualize cfg.1.container err r.2.world) err
        else err
      ({ cfg.1 with err := some err },
        errorHandlerList.HandleError E cfg.1.errorHooks err2 r.2)

/-- Go `New(opts...)`. -/
def New {W : Type} (E : Env W) (opts : List FxOption) (w : W) : App × Sys W :=
  New.invoke E (New.configure E opts w)

/-- Go `App.Err`. -/
def App.Err (app : App) : Option GoError := app.err

/-- Go `App.StartTimeout`. -/
def App.StartTimeout (app : App) : Duration := app.startTimeout

/-- Go `App.StopTimeout`. -/
def App.StopTimeout (app : App) : Duration := app.stopTimeout

/-- Which case the `select` of `withTimeout` takes: `<-ctx.Done()`, possible
only once `ctx` is done, with `ctx.Err()` then being `err`; or `<-c`, the
result of the operation. -/
inductive Select where
  | ctxDone (err : GoError)
  | result

/-- The value the `select` of `withTimeout` returns when the operation returns
`r`: `r` itself from `<-c`, `ctx.Err()` from `<-ctx.Done()`. -/
def Select.pick (sel : Select) (ctx : Context) (r : Option GoError) : Option GoError :=
  match sel with
  | .result => r
  | .ctxDone err => if ctx.neverDone then r else some err

/-- Go `withTimeout(ctx, f)`.  The operation is started in every case and is
not interrupted, so the state is the one it leaves; `none` is a panic of the
operation. -/
def withTimeout {W : Type} (sel : Select) (ctx : Context)
    (f : Context → Sys W → Option (Option GoError × Sys W)) (s : Sys W) :
    Option (Option GoError × Sys W) :=
  match f ctx s with
  | none => none
  | some r => some (sel.pick ctx r.1, r.2)

/-- Go `App.start`.  `none` is the nil dereference of an App without lifecycle. -/
def App.start {W : Type} (E : Env W) (app : App) (ctx : Context) (s : Sys W) :
    Option (Option GoError × Sys W) :=
  match app.err with
  | some e => some (some e, s)
  | none =>
    match app.lifecycle with
    | none => none
    | some lc =>
      let r := E.lifecycleStart lc ctx s.world
      let s1 : Sys W := { world := r.2, trace := s.trace ++ [.lifecycleStart lc ctx] }
      match r.1 with
      | some err =>
        let q := E.lifecycleStop lc ctx s1.world
        let s2 : Sys W := { world := q.2, trace := s1.trace ++ [.lifecycleStop lc ctx] }
        match q.1 with
        | some stopErr => some (multierrAppend (some err) (some stopErr), s2)
        | none => some (some err, s2)
      | none => some (none, s1)

/-- Go `App.Start`. -/
def App.Start {W : Type} (E : Env W) (app : App) (sel : Select) (ctx : Context) (s : Sys W) :
    Option (Option GoError × Sys W) :=
  withTimeout sel ctx (app.start E) s

/-- Go `App.Stop`. -/
def App.Stop {W : Type} (E : Env W) (app : App) (sel : Select) (ctx : Context) (s : Sys W) :
    Option (Option GoError × Sys W) :=
  match app.lifecycle with
  | none => none
  | some lc =>
    withTimeout sel ctx
      (fun c t =>
        let q := E.lifecycleStop lc c t.world
        some (q.1, { world := q.2, trace := t.trace ++ [.lifecycleStop lc c] }))
      s

/-- Go `App.Done`.  `id` is the identity of the channel that `make` returns;
the channel is handed to `signal.Notify` and appended to `app.dones` (under
`donesMu`). -/
def App.Done {W : Type} (app : App) (id : Nat) (s : Sys W) : Chan × App × Sys W :=
  ({ id := id, cap := 1 },
   { app with dones := app.dones ++ [{ id := id, cap := 1 }] },
   { world := s.world,
     trace := s.trace ++ [.signalNotify { id := id, cap := 1 } [.SIGINT, .SIGTERM]] })

/-- How a call of `run` ends: a panic; the exit of the process in
`logger.Fatalf(format, err)` once the operation has ended, with the state it
leaves; that exit while the operation, started in state `s`, may still be
running, so that the calls it has made by then are not determined; waiting
for ever on `<-done`; or the return. -/
inductive RunResult (W : Type) where
  | panicked
  | fatal (format : String) (err : GoError) (s : Sys W)
  | fatalDuring (format : String) (err : GoError) (s : Sys W)
  | blocked (s : Sys W)
  | returned (s : Sys W)

/-- Go `App.run(done)`.  `sig` is the signal received from `done`, if one
ever arrives; `selStart` and `selStop` are the cases the two calls of
`withTimeout` take.  When a `select` receives from `ctx.Done()`, `Start` or
`Stop` returns `ctx.Err()` without waiting for the operation and `Fatalf`
ends the process at once. -/
def App.run {W : Type} (E : Env W) (app : App) (selStart selStop : Select)
    (sig : Option Signal) (s : Sys W) : RunResult W :=
  match app.Start E selStart (.withTimeout .background app.StartTimeout) s with
  | none => .panicked
  | some r =>
    match r.1 with
    | some err =>
      match selStart with
      | .result => .fatal "ERROR\t\tFailed to start: %v" err r.2
      | .ctxDone _ => .fatalDuring "ERROR\t\tFailed to start: %v" err s
    | none =>
      match sig with
      | none => .blocked r.2
      | some _ =>
        match app.Stop E selStop (.withTimeout .background app.StopTimeout) r.2 with
        | none => .panicked
        | some q =>
          match q.1 with
          | some err =>
            match selStop with
            | .result => .fatal "ERROR\t\tFailed to stop cleanly: %v" err q.2
            | .ctxDone _ => .fatalDuring "ERROR\t\tFailed to stop cleanly: %v" err r.2
          | none => .returned q.2

/-- Go `App.Run`: `app.run(app.Done())`. -/
def App.Run {W : Type} (E : Env W) (app : App) (id : Nat) (selStart selStop : Select)
    (sig : Option Signal) (s : Sys W) : App × RunResult W :=
  ((app.Done id s).2.1, (app.Done id s).2.1.run E selStart selStop sig (app.Done id s).2.2)

/-! ## Definitions used to state the properties -/

/-- A set of collaborators for concrete runs: handles are allocated from a
counter, registering a constructor always succeeds, an invocation fails as
`invokeErr` says and the lifecycle's `Start` and `Stop` return `startErr` and
`stopErr`. -/
def sampleEnv (invokeErr : Value → Option GoError) (startErr stopErr : Option GoError) :
    Env Nat where
  digNew w := (w, w + 1)
  digChild _ _ w := (w, w + 1)
  digProvide _ _ _ w := (none, w)
  digDecorate _ _ _ w := (none, w)
  digInvoke _ fn w := (invokeErr fn, w)
  digCanVisualizeError _ := false
  digVisualize _ _ _ := ""
  lifecycleNew _ w := (w, w + 1)
  lifecycleStart _ _ w := (startErr, w)
  lifecycleStop _ _ w := (stopErr, w)
  handleError _ _ w := w
  sprintf f _ := f

/-- The collaborators of `sampleEnv` with nothing failing. -/
def okEnv : Env Nat := sampleEnv (fun _ => none) none none

/-- An App as `New` makes it (container 1, lifecycle 0) whose construction
error is `e`. -/
def failedApp (e : GoError) : App := { New.app 1 0 with err := some e }

/-- Whether the value is one whose dynamic type implements `Option`. -/
def Value.isOption : Value → Bool
  | .option _ => true
  | _ => false

/-- The invocations `fns`, run in order from `s`, all succeed and leave `s2`:
none of them is an `Option` value, each is handed to `container.Invoke` in
the state the one before left, and each call returns nil. -/
inductive AllSucceed {W : Type} (E : Env W) (container : Nat) :
    List Value → Sys W → Sys W → Prop where
  | nil (s : Sys W) : AllSucceed E container [] s s
  | cons (fn : Value) (rest : List Value) (s s2 : Sys W) :
      fn.isOption = false → (E.digInvoke container fn s.world).1 = none →
      AllSucceed E container rest
        { world := (E.digInvoke container fn s.world).2,
          trace := s.trace ++ [.invoke container fn] } s2 →
      AllSucceed E container (fn :: rest) s s2

/-- The invocation `fn`, run from `s`, fails with `e` and leaves `s2`: either
`fn` is an `Option` value, `e` is the error `fmt.Errorf` makes for it and
nothing is called; or `fn` is handed to `container.Invoke`, which returns
`e`. -/
def FailsWith {W : Type} (E : Env W) (container : Nat) (fn : Value) (s : Sys W)
    (e : GoError) (s2 : Sys W) : Prop :=
  (fn.isOption = true ∧
    e = .ext (E.sprintf
      "fx.Option should be passed to fx.New directly, not to fx.Invoke: fx.Invoke received %v"
      fn) ∧
    s2 = s) ∨
  (fn.isOption = false ∧ (E.digInvoke container fn s.world).1 = some e ∧
    s2 = { world := (E.digInvoke container fn s.world).2,
           trace := s.trace ++ [.invoke container fn] })

/-- The calls of `container.Invoke` that running `fn` makes: none for a value
that is an `Option`, one otherwise. -/
def invokeCalls (container : Nat) : Value → List Event
  | .option _ => []
  | fn => [.invoke container fn]

/-- What a sequence of options adds to the four lists of an App. -/
structure Registered where
  provides : List Value
  invokes : List Value
  decorators : List Value
  errorHooks : List Nat
  deriving DecidableEq, Repr

/-- Nothing added. -/
def Registered.empty : Registered := ⟨[], [], [], []⟩

/-- First `x`, then `y`. -/
def Registered.append (x y : Registered) : Registered :=
  ⟨x.provides ++ y.provides, x.invokes ++ y.invokes, x.decorators ++ y.decorators,
    x.errorHooks ++ y.errorHooks⟩

/-- The functions of the `Invoke` options that are direct members of a
module, in order. -/
def directInvokes : List FxOption → List Value
  | [] => []
  | .invokeOption io :: rest => io ++ directInvokes rest
  | _ :: rest => directInvokes rest

/-- The handlers of the `ErrorHook` options that are direct members of a
module, in order. -/
def directErrorHooks : List FxOption → List Nat
  | [] => []
  | .errorHookOption eho :: rest => eho ++ directErrorHooks rest
  | _ :: rest => directErrorHooks rest

mutual
/-- What an option adds to the lists of the App it is applied to: its own
arguments for `Provide`, `Invoke`, `ErrorHook` and `Decorate`; what its
members add, for `Options`; the invocations and handlers of its direct
members, for `Module`. -/
def FxOption.registers : FxOption → Registered
  | .provideOption po => ⟨po, [], [], []⟩
  | .invokeOption io => ⟨[], io, [], []⟩
  | .errorHookOption eho => ⟨[], [], [], eho⟩
  | .decorateOption d => ⟨[], [], d, []⟩
  | .optionGroup og => registersAll og
  | .moduleOption _ options => ⟨[], directInvokes options, [], directErrorHooks options⟩
  | .optionFunc _ => Registered.empty
  | .withLoggerOption _ => Registered.empty
/-- What a list of options, applied in order, adds to the lists of the App
they are applied to. -/
def registersAll : List FxOption → Registered
  | [] => Registered.empty
  | opt :: rest => opt.registers.append (registersAll rest)
end

/-- What the members of a module add to the lists of its child: what the
members that are not routed to the parent register. -/
def registersChild : List FxOption → Registered
  | [] => Registered.empty
  | opt :: rest =>
      if opt.routedToParent then registersChild rest
      else opt.registers.append (registersChild rest)

/-- App `b` is App `a` with `r` appended to its four lists, at the same place
in the tree. -/
def Extends (a b : App) (r : Registered) : Prop :=
  b.provides = a.provides ++ r.provides ∧ b.invokes = a.invokes ++ r.invokes ∧
  b.decorators = a.decorators ++ r.decorators ∧ b.errorHooks = a.errorHooks ++ r.errorHooks ∧
  b.parent = a.parent ∧ b.addr = a.addr ∧ b.container = a.container ∧ b.dones = a.dones

/-- App `b` has the configuration of App `a`: every field but `err` and
`children` is the same. -/
def KeepsConfig (a b : App) : Prop :=
  b.container = a.container ∧ b.lifecycle = a.lifecycle ∧ b.provides = a.provides ∧
  b.invokes = a.invokes ∧ b.decorators = a.decorators ∧ b.logger = a.logger ∧
  b.startTimeout = a.startTimeout ∧ b.stopTimeout = a.stopTimeout ∧
  b.errorHooks = a.errorHooks ∧ b.dones = a.dones ∧ b.parent = a.parent ∧ b.addr = a.addr

/-- The events `p` selects are neither calls of `Provide` nor of `Decorate`. -/
def SkipsRegistration (p : Event → Bool) : Prop :=
  (∀ c v o, p (.provide c v o) = false) ∧ (∀ c v o, p (.decorate c v o) = false)

/-- The App to which `New` applies its options. -/
def New.initial {W : Type} (E : Env W) (w : W) : App :=
  New.app (E.digNew (E.lifecycleNew .fxlogNew w).2).1 (E.lifecycleNew .fxlogNew w).1

/-- The App `New` has after the loop over its options. -/
def New.applied {W : Type} (E : Env W) (opts : List FxOption) (w : W) : App :=
  (applyAll E opts (New.initial E w) (E.digNew (E.lifecycleNew .fxlogNew w).2).2).1

mutual
/-- Whether the option is, or contains at any depth, a `StartTimeout` or a
`StopTimeout` option. -/
def FxOption.hasTimeout : FxOption → Bool
  | .optionFunc (.StartTimeout _) => true
  | .optionFunc (.StopTimeout _) => true
  | .optionFunc (.Error _) => false
  | .optionFunc (.Logger _) => false
  | .optionGroup og => hasTimeoutAny og
  | .moduleOption _ options => hasTimeoutAny options
  | .provideOption _ => false
  | .invokeOption _ => false
  | .withLoggerOption _ => false
  | .errorHookOption _ => false
  | .decorateOption _ => false
/-- Whether one of the options is, or contains, a `StartTimeout` or a
`StopTimeout` option. -/
def hasTimeoutAny : List FxOption → Bool
  | [] => false
  | opt :: rest => opt.hasTimeout || hasTimeoutAny rest
end

/-- C1 (amended): when the construction error of an App is `e`, `App.start`
returns `e` and leaves the collaborators and the record of calls as they were,
so neither the lifecycle's `Start` nor its `Stop` is called.  `Start` returns
what the `select` of `withTimeout` picks: `e` when the result is received,
`ctx.Err()` when `ctx.Done()` is; again nothing is called. -/
theorem start_short_circuit {W : Type} (E : Env W) (app : App) (e : GoError) (sel : Select)
    (ctx : Context) (s : Sys W) (h : app.err = some e) :
    app.start E ctx s = some (some e, s) ∧
    App.Start E app sel ctx s = some (sel.pick ctx (some e), s) ∧
    App.Start E app .result ctx s = some (some e, s) := by
  have hs : app.start E ctx s = some (some e, s) := by simp [App.start, h]
  exact ⟨hs, by simp [App.Start, withTimeout, hs], by simp [App.Start, withTimeout, hs,
    Select.pick]⟩

/-- C1, an instance: an App with construction error `boom`, started with the
result received first. -/
theorem start_short_circuit_witness :
    (failedApp (.ext "boom")).err = some (.ext "boom") ∧
    App.Start okEnv (failedApp (.ext "boom")) .result (.user 0) ⟨2, []⟩ =
      some (some (.ext "boom"), ⟨2, []⟩) :=
  ⟨rfl, (start_short_circuit okEnv (failedApp (.ext "boom")) (.ext "boom") .result (.user 0)
    ⟨2, []⟩ rfl).2.2⟩

/-- C1 as stated fails: an App with construction error `boom`, started on a
context of the caller that is already cancelled, can return
`context canceled`, which is not its construction error. -/
theorem start_cancelled_returns_ctx_err :
    (failedApp (.ext "boom")).err = some (.ext "boom") ∧
    (App.Start okEnv (failedApp (.ext "boom")) (.ctxDone (.ext "context canceled"))
        (.user 0) ⟨2, []⟩).map Prod.fst = some (some (.ext "context canceled")) ∧
    GoError.ext "context canceled" ≠ GoError.ext "boom" := by
  refine ⟨rfl, rfl, by decide⟩

/-- C2 (amended): for an App without construction error, `App.start` calls
the lifecycle's `Start` once.  If that succeeds it returns nil and `Stop` is
not called.  If it fails with `e`, the lifecycle's `Stop` is called once, with
the same context; `start` returns `e` itself when the rollback succeeds and
the aggregate of `e` and `stopErr`, in this order, when it fails with
`stopErr`.  `Start` makes the same calls and returns what the `select` of
`withTimeout` picks: the value of `start` when the result is received,
`ctx.Err()` when `ctx.Done()` is. -/
theorem start_rollback {W : Type} (E : Env W) (app : App) (lc : Nat) (sel : Select)
    (ctx : Context) (s : Sys W) (herr : app.err = none) (hlc : app.lifecycle = some lc) :
    app.start E ctx s =
      some (match (E.lifecycleStart lc ctx s.world).1,
          (E.lifecycleStop lc ctx (E.lifecycleStart lc ctx s.world).2).1 with
        | none, _ =>
          (none, { world := (E.lifecycleStart lc ctx s.world).2,
                   trace := s.trace ++ [.lifecycleStart lc ctx] })
        | some e, none =>
          (some e, { world := (E.lifecycleStop lc ctx (E.lifecycleStart lc ctx s.world).2).2,
                     trace := s.trace ++ [.lifecycleStart lc ctx, .lifecycleStop lc ctx] })
        | some e, some stopErr =>
          (some (.append e stopErr),
            { world := (E.lifecycleStop lc ctx (E.lifecycleStart lc ctx s.world).2).2,
              trace := s.trace ++ [.lifecycleStart lc ctx, .lifecycleStop lc ctx] }))
    ∧ App.Start E app sel ctx s =
        (app.start E ctx s).map (fun r => (sel.pick ctx r.1, r.2))
    ∧ App.Start E app .result ctx s = app.start E ctx s := by
  refine ⟨?_, ?_, ?_⟩
  · simp only [App.start, herr, hlc]
    cases h1 : (E.lifecycleStart lc ctx s.world).1 with
    | none => simp
    | some e =>
      cases h2 : (E.lifecycleStop lc ctx (E.lifecycleStart lc ctx s.world).2).1 with
      | none => simp
      | some st => simp [multierrAppend]
  · simp only [App.Start, withTimeout]
    cases app.start E ctx s <;> rfl
  · simp only [App.Start, withTimeout]
    cases app.start E ctx s <;> rfl

/-- C2, an instance: `Start` fails with `start`, the rollback with `stop`. -/
theorem start_rollback_witness :
    (New.app 1 0).err = none ∧ (New.app 1 0).lifecycle = some 0 ∧
    (New.app 1 0).start (sampleEnv (fun _ => none) (some (.ext "start")) (some (.ext "stop")))
        (.user 0) ⟨2, []⟩ =
      some (some (.append (.ext "start") (.ext "stop")),
        ⟨2, [.lifecycleStart 0 (.user 0), .lifecycleStop 0 (.user 0)]⟩) :=
  ⟨rfl, rfl, (start_rollback (sampleEnv (fun _ => none) (some (.ext "start"))
    (some (.ext "stop"))) (New.app 1 0) 0 .result (.user 0) ⟨2, []⟩ rfl rfl).1⟩

/-- C2 as stated fails: the lifecycle's `Start` fails with `hook failed` and
the rollback succeeds, yet `Start`, on a context of the caller that is done
first, returns `context canceled`, not `hook failed`. -/
theorem start_failed_returns_ctx_err :
    (New.app 1 0).err = none ∧
    (sampleEnv (fun _ => none) (some (.ext "hook failed")) none).lifecycleStart 0 (.user 0) 2
      = (some (.ext "hook failed"), 2) ∧
    (App.Start (sampleEnv (fun _ => none) (some (.ext "hook failed")) none) (New.app 1 0)
        (.ctxDone (.ext "context canceled")) (.user 0) ⟨2, []⟩).map Prod.fst
      = some (some (.ext "context canceled")) ∧
    GoError.ext "context canceled" ≠ GoError.ext "hook failed" := by
  refine ⟨rfl, rfl, rfl, by decide⟩

/-- C8 (amended): `Stop` does not look at the construction error.  For every
App, with or without one, it calls the lifecycle's `Stop` once and returns
what the `select` of `withTimeout` picks: the result of that call when it is
received, `ctx.Err()` when `ctx.Done()` is. -/
theorem stop_runs_lifecycle {W : Type} (E : Env W) (app : App) (lc : Nat) (sel : Select)
    (ctx : Context) (s : Sys W) (hlc : app.lifecycle = some lc) :
    App.Stop E app sel ctx s =
      some (sel.pick ctx (E.lifecycleStop lc ctx s.world).1,
        { world := (E.lifecycleStop lc ctx s.world).2,
          trace := s.trace ++ [.lifecycleStop lc ctx] }) ∧
    App.Stop E app .result ctx s =
      some ((E.lifecycleStop lc ctx s.world).1,
        { world := (E.lifecycleStop lc ctx s.world).2,
          trace := s.trace ++ [.lifecycleStop lc ctx] }) := by
  constructor <;> simp [App.Stop, withTimeout, hlc, Select.pick]

/-- C8, an instance: an App with construction error `boom` is stopped. -/
theorem stop_runs_lifecycle_witness :
    (failedApp (.ext "boom")).lifecycle = some 0 ∧
    App.Stop okEnv (failedApp (.ext "boom")) .result (.user 0) ⟨2, []⟩ =
      some (none, ⟨2, [.lifecycleStop 0 (.user 0)]⟩) :=
  ⟨rfl, (stop_runs_lifecycle okEnv (failedApp (.ext "boom")) 0 .result (.user 0) ⟨2, []⟩
    rfl).2⟩

/-- C8 as stated fails: on an App with construction error `boom`, `Stop`
returns nil, not `boom`, and the lifecycle's `Stop` has been called. -/
theorem stop_ignores_construction_error :
    (failedApp (.ext "boom")).err = some (.ext "boom") ∧
    (App.Stop okEnv (failedApp (.ext "boom")) .result (.user 0) ⟨2, []⟩).map Prod.fst
      = some none ∧
    (App.Stop okEnv (failedApp (.ext "boom")) .result (.user 0) ⟨2, []⟩).map
      (fun r => r.2.trace) = some [.lifecycleStop 0 (.user 0)] := by
  refine ⟨rfl, rfl, rfl⟩

/-! ## Invocations -/

theorem invokeOne_trace {W : Type} (E : Env W) (c : Nat) (fn : Value) (s : Sys W) :
    (invokeOne E c fn s).2.trace = s.trace ++ invokeCalls c fn := by
  cases fn <;> simp [invokeOne, invokeCalls]

theorem invokeOne_none_trace {W : Type} (E : Env W) (c : Nat) (fn : Value) (s s1 : Sys W)
    (h : invokeOne E c fn s = (none, s1)) : s1.trace = s.trace ++ [.invoke c fn] := by
  cases fn <;> simp_all [invokeOne] <;> (obtain ⟨_, rfl⟩ := h; rfl)

theorem invokeOne_of_option {W : Type} (E : Env W) (c : Nat) (fn : Value) (s : Sys W)
    (h : fn.isOption = true) :
    invokeOne E c fn s = (some (.ext (E.sprintf
      "fx.Option should be passed to fx.New directly, not to fx.Invoke: fx.Invoke received %v"
      fn)), s) := by
  cases fn <;> simp_all [invokeOne, Value.isOption]

theorem invokeOne_of_call {W : Type} (E : Env W) (c : Nat) (fn : Value) (s : Sys W)
    (h : fn.isOption = false) :
    invokeOne E c fn s = ((E.digInvoke c fn s.world).1,
      { world := (E.digInvoke c fn s.world).2, trace := s.trace ++ [.invoke c fn] }) := by
  cases fn <;> simp_all [invokeOne, Value.isOption]

/-- The loop of `executeInvokes` either runs every invocation with success, or
runs a first part with success and stops at the invocation after it. -/
theorem executeInvokesFrom_cases {W : Type} (E : Env W) (c : Nat) :
    ∀ (fns : List Value) (s : Sys W),
    (∃ s2, AllSucceed E c fns s s2 ∧ executeInvokesFrom E c fns s = (none, s2) ∧
        s2.trace = s.trace ++ fns.map (Event.invoke c)) ∨
    (∃ pre fn post s1 e s2, fns = pre ++ fn :: post ∧ AllSucceed E c pre s s1 ∧
        s1.trace = s.trace ++ pre.map (Event.invoke c) ∧
        FailsWith E c fn s1 e s2 ∧
        executeInvokesFrom E c fns s = (some e, s2) ∧
        s2.trace = s1.trace ++ invokeCalls c fn)
  | [], s => Or.inl ⟨s, .nil s, rfl, by simp⟩
  | fn :: rest, s => by
    cases ho : fn.isOption with
    | true =>
      have h := invokeOne_of_option E c fn s ho
      refine Or.inr ⟨[], fn, rest, s, _, s, rfl, .nil s, by simp, Or.inl ⟨ho, rfl, rfl⟩,
        ?_, ?_⟩
      · simp [executeInvokesFrom, h]
      · cases fn <;> simp_all [invokeCalls, Value.isOption]
    | false =>
      have h := invokeOne_of_call E c fn s ho
      cases hr : (E.digInvoke c fn s.world).1 with
      | some e =>
        refine Or.inr ⟨[], fn, rest, s, e, _, rfl, .nil s, by simp, Or.inr ⟨ho, hr, rfl⟩,
          ?_, ?_⟩
        · simp [executeInvokesFrom, h, hr]
        · cases fn <;> simp_all [invokeCalls, Value.isOption]
      | none =>
        rcases executeInvokesFrom_cases E c rest
            { world := (E.digInvoke c fn s.world).2, trace := s.trace ++ [.invoke c fn] } with
          ⟨s2, h1, h2, h3⟩ | ⟨pre, g, post, t1, e, t2, h1, h2, h3, h4, h5, h6⟩
        · refine Or.inl ⟨s2, .cons fn rest s s2 ho hr h1, ?_, ?_⟩
          · simp [executeInvokesFrom, h, hr, h2]
          · simp [h3]
        · refine Or.inr ⟨fn :: pre, g, post, t1, e, t2, by simp [h1],
            .cons fn pre s t1 ho hr h2, ?_, h4, ?_, h6⟩
          · simp [h3]
          · simp [executeInvokesFrom, h, hr, h5]

theorem executeInvokesFrom_trace {W : Type} (E : Env W) (c : Nat) (p : Event → Bool)
    (hp : ∀ k v, p (.invoke k v) = false) :
    ∀ (fns : List Value) (s : Sys W),
    (executeInvokesFrom E c fns s).2.trace.filter p = s.trace.filter p
  | [], s => by simp [executeInvokesFrom]
  | fn :: rest, s => by
    have h1 : (invokeOne E c fn s).2.trace.filter p = s.trace.filter p := by
      rw [invokeOne_trace]
      cases fn <;> simp [invokeCalls, List.filter_append, hp]
    have h2 := executeInvokesFrom_trace E c p hp rest (invokeOne E c fn s).2
    simp only [executeInvokesFrom]
    cases h : (invokeOne E c fn s).1 with
    | some e => simpa using h1
    | none => simpa [h1] using h2

theorem HandleError_trace {W : Type} (E : Env W) (err : GoError) :
    ∀ (ehl : List Nat) (s : Sys W),
    (errorHandlerList.HandleError E ehl err s).trace =
      s.trace ++ ehl.map (fun eh => Event.handleError eh err)
  | [], s => by simp [errorHandlerList.HandleError]
  | eh :: rest, s => by
    simp [errorHandlerList.HandleError, HandleError_trace E err rest]

theorem HandleError_world {W : Type} (E : Env W) (err : GoError) :
    ∀ (ehl : List Nat) (s : Sys W),
    (errorHandlerList.HandleError E ehl err s).world =
      ehl.foldl (fun u eh => E.handleError eh err u) s.world
  | [], s => by simp [errorHandlerList.HandleError]
  | eh :: rest, s => by
    simp [errorHandlerList.HandleError, HandleError_world E err rest]

/-- C3: `executeInvokes` calls the invocations in registration order.  Either
every one is handed to `container.Invoke` exactly once, each call returns nil,
and the result is nil; or the invocations before some `fn` are so called with
success, `fn` fails with `e` (`container.Invoke(fn)` returns `e`, or `fn` is an
`Option` value and is not handed to the container), nothing after `fn` is
called and the result is `e`, in the state that the call for `fn` leaves.
When no error was recorded before, `Err()` of the App that `New` returns is
this result. -/
theorem executeInvokes_first_failure {W : Type} (E : Env W) (app : App) (s : Sys W)
    (opts : List FxOption) (w : W) :
    ((∃ s2, AllSucceed E app.container app.invokes s s2 ∧
        app.executeInvokes E s = (none, s2) ∧
        s2.trace = s.trace ++ app.invokes.map (Event.invoke app.container)) ∨
     (∃ pre fn post s1 e s2, app.invokes = pre ++ fn :: post ∧
        AllSucceed E app.container pre s s1 ∧
        s1.trace = s.trace ++ pre.map (Event.invoke app.container) ∧
        FailsWith E app.container fn s1 e s2 ∧
        app.executeInvokes E s = (some e, s2) ∧
        s2.trace = s1.trace ++ invokeCalls app.container fn)) ∧
    (New E opts w).1.Err =
      (match (New.configure E opts w).1.err with
        | some e => some e
        | none => ((New.configure E opts w).1.executeInvokes E (New.configure E opts w).2).1) := by
  refine ⟨executeInvokesFrom_cases E app.container app.invokes s, ?_⟩
  simp only [New, New.invoke, App.Err]
  cases h : (New.configure E opts w).1.err with
  | some e => simp [h]
  | none =>
    simp only []
    cases h2 : ((New.configure E opts w).1.executeInvokes E (New.configure E opts w).2).1 with
    | none => simp [h]
    | some e => simp

/-! ## Applying options -/

theorem Extends.refl_empty (a : App) : Extends a a Registered.empty := by
  simp [Extends, Registered.empty]

theorem Extends.chain {a b c : App} {r t : Registered} (h1 : Extends a b r)
    (h2 : Extends b c t) : Extends a c (r.append t) := by
  obtain ⟨a1, a2, a3, a4, a5, a6, a7, a8⟩ := h1
  obtain ⟨b1, b2, b3, b4, b5, b6, b7, b8⟩ := h2
  simp [Extends, Registered.append, *]

theorem optionFunc_apply_extends {W : Type} (E : Env W) (f : OptionFunc) (a : App) (w : W) :
    Extends a (f.apply E a w).1 Registered.empty ∧ (f.apply E a w).1.children = a.children := by
  cases f <;> simp [OptionFunc.apply, Extends, Registered.empty]

/-- The members of a module add their direct invocations and handlers to the
App the module is applied to, and nothing else to its lists or children. -/
theorem applyMembers_parent {W : Type} (E : Env W) :
    ∀ (ms : List FxOption) (a ca : App) (w : W),
    Extends a (applyMembers E ms a ca w).1 ⟨[], directInvokes ms, [], directErrorHooks ms⟩ ∧
    (applyMembers E ms a ca w).1.children = a.children
  | [], a, ca, w => by simp [applyMembers, Extends, directInvokes, directErrorHooks]
  | opt :: rest, a, ca, w => by
    cases opt with
    | invokeOption io =>
      have ih := applyMembers_parent E rest { a with invokes := a.invokes ++ io } ca w
      simpa [applyMembers, FxOption.routedToParent, FxOption.apply, Extends, directInvokes,
        directErrorHooks] using ih
    | errorHookOption eho =>
      have ih := applyMembers_parent E rest { a with errorHooks := a.errorHooks ++ eho } ca w
      simpa [applyMembers, FxOption.routedToParent, FxOption.apply, Extends, directInvokes,
        directErrorHooks] using ih
    | optionFunc f =>
      have h0 := optionFunc_apply_extends E f a w
      have ih := applyMembers_parent E rest (f.apply E a w).1 ca (f.apply E a w).2
      simp only [applyMembers, FxOption.routedToParent, FxOption.apply, directInvokes,
        directErrorHooks, if_true]
      obtain ⟨⟨a1, a2, a3, a4, a5, a6, a7, a8⟩, a9⟩ := h0
      obtain ⟨⟨b1, b2, b3, b4, b5, b6, b7, b8⟩, b9⟩ := ih
      simp_all [Extends, Registered.empty]
    | provideOption po =>
      simpa [applyMembers, FxOption.routedToParent, directInvokes, directErrorHooks] using
        applyMembers_parent E rest a _ _
    | optionGroup og =>
      simpa [applyMembers, FxOption.routedToParent, directInvokes, directErrorHooks] using
        applyMembers_parent E rest a _ _
    | withLoggerOption l =>
      simpa [applyMembers, FxOption.routedToParent, directInvokes, directErrorHooks] using
        applyMembers_parent E rest a _ _
    | decorateOption d =>
      simpa [applyMembers, FxOption.routedToParent, directInvokes, directErrorHooks] using
        applyMembers_parent E rest a _ _
    | moduleOption n ms =>
      simpa [applyMembers, FxOption.routedToParent, directInvokes, directErrorHooks] using
        applyMembers_parent E rest a _ _

mutual
/-- Applying an option appends what it registers to the lists of the App. -/
theorem apply_extends {W : Type} (E : Env W) :
    ∀ (opt : FxOption) (a : App) (w : W), Extends a (opt.apply E a w).1 opt.registers
  | .provideOption po, a, w => by simp [FxOption.apply, FxOption.registers, Extends]
  | .invokeOption io, a, w => by simp [FxOption.apply, FxOption.registers, Extends]
  | .errorHookOption eho, a, w => by simp [FxOption.apply, FxOption.registers, Extends]
  | .decorateOption d, a, w => by simp [FxOption.apply, FxOption.registers, Extends]
  | .withLoggerOption l, a, w => by
    simp [FxOption.apply, FxOption.registers, Extends, Registered.empty]
  | .optionFunc f, a, w => by
    simpa [FxOption.apply, FxOption.registers] using (optionFunc_apply_extends E f a w).1
  | .optionGroup og, a, w => by
    simpa [FxOption.apply, FxOption.registers] using applyAll_extends E og a w
  | .moduleOption name ms, a, w => by
    have h := (applyMembers_parent E ms { a with children := a.children ++ [newChild a
      (E.digChild a.container name w).1] } (newChild a (E.digChild a.container name w).1)
      (E.digChild a.container name w).2).1
    simpa [FxOption.apply, FxOption.registers, Extends] using h
/-- Applying a list of options appends what they register, in order. -/
theorem applyAll_extends {W : Type} (E : Env W) :
    ∀ (opts : List FxOption) (a : App) (w : W),
    Extends a (applyAll E opts a w).1 (registersAll opts)
  | [], a, w => by simpa [applyAll, registersAll] using Extends.refl_empty a
  | opt :: rest, a, w => by
    have h1 := apply_extends E opt a w
    have h2 := applyAll_extends E rest (opt.apply E a w).1 (opt.apply E a w).2
    simpa [applyAll, registersAll] using h1.chain h2
end

theorem applyMembers_child {W : Type} (E : Env W) :
    ∀ (ms : List FxOption) (a ca : App) (w : W),
    Extends ca (applyMembers E ms a ca w).2.1 (registersChild ms)
  | [], a, ca, w => by simpa [applyMembers, registersChild] using Extends.refl_empty ca
  | opt :: rest, a, ca, w => by
    by_cases h : opt.routedToParent = true
    · simpa [applyMembers, registersChild, h] using applyMembers_child E rest _ ca _
    · have h1 := apply_extends E opt ca w
      have h2 := applyMembers_child E rest a (opt.apply E ca w).1 (opt.apply E ca w).2
      simpa [applyMembers, registersChild, h] using h1.chain h2

theorem registersChild_provides :
    ∀ (ms : List FxOption), (registersChild ms).provides = (registersAll ms).provides ∧
      (registersChild ms).decorators = (registersAll ms).decorators
  | [] => by simp [registersChild, registersAll]
  | opt :: rest => by
    have ih := registersChild_provides rest
    cases opt <;>
      simp [registersChild, registersAll, FxOption.routedToParent, FxOption.registers,
        Registered.append, Registered.empty, ih]

theorem set_length_append {α : Type} (l : List α) (x y : α) :
    (l ++ [x]).set l.length y = l ++ [y] := by
  induction l with
  | nil => rfl
  | cons a l ih => simp [List.set, ih]

theorem registersAll_append (xs ys : List FxOption) :
    registersAll (xs ++ ys) = (registersAll xs).append (registersAll ys) := by
  induction xs with
  | nil => simp [registersAll, Registered.append, Registered.empty]
  | cons x xs ih => simp [registersAll, ih, Registered.append]

/-- C6: applying `Module(name, ms...)` to an App `a` appends one child to
`a.children`, whose parent is `a`; the provides and decorators of the child
are the constructors of the `Provide` and `Decorate` options among the members
(direct, or grouped by `Options`), in order, a direct `Provide(cs...)` or
`Decorate(ds...)` contributing `cs` or `ds` at its place; the provides and
decorators of `a` are unchanged. -/
theorem module_apply_child {W : Type} (E : Env W) (name : String) (ms : List FxOption)
    (a : App) (w : W) :
    ∃ ca, ((Module name ms).apply E a w).1.children = a.children ++ [ca] ∧
      ca.parent = some a.addr ∧
      ca.provides = (registersAll ms).provides ∧
      ca.decorators = (registersAll ms).decorators ∧
      ((Module name ms).apply E a w).1.provides = a.provides ∧
      ((Module name ms).apply E a w).1.decorators = a.decorators ∧
      (∀ pre cs post, (registersAll (pre ++ Provide cs :: post)).provides =
        (registersAll pre).provides ++ cs ++ (registersAll post).provides) ∧
      (∀ pre ds post, (registersAll (pre ++ Decorate ds :: post)).decorators =
        (registersAll pre).decorators ++ ds ++ (registersAll post).decorators) := by
  have hp := applyMembers_parent E ms { a with children := a.children ++ [newChild a
      (E.digChild a.container name w).1] } (newChild a (E.digChild a.container name w).1)
      (E.digChild a.container name w).2
  have hc := applyMembers_child E ms { a with children := a.children ++ [newChild a
      (E.digChild a.container name w).1] } (newChild a (E.digChild a.container name w).1)
      (E.digChild a.container name w).2
  have hr := registersChild_provides ms
  obtain ⟨⟨p1, p2, p3, p4, p5, p6, p7, p8⟩, p9⟩ := hp
  obtain ⟨c1, c2, c3, c4, c5, c6, c7, c8⟩ := hc
  refine ⟨(applyMembers E ms { a with children := a.children ++ [newChild a
      (E.digChild a.container name w).1] } (newChild a (E.digChild a.container name w).1)
      (E.digChild a.container name w).2).2.1, ?_, ?_, ?_, ?_, ?_, ?_, ?_, ?_⟩
  · simp only [Module, FxOption.apply]
    rw [p9]
    exact set_length_append _ _ _
  · rw [c5]; rfl
  · rw [c1, hr.1]; simp [newChild]
  · rw [c3, hr.2]; simp [newChild]
  · simp only [Module, FxOption.apply]; simpa using p1
  · simp only [Module, FxOption.apply]; simpa using p3
  · intro pre cs post
    simp [registersAll_append, registersAll, Registered.append, Provide, FxOption.registers]
  · intro pre ds post
    simp [registersAll_append, registersAll, Registered.append, Decorate, FxOption.registers]

/-! ## New -/

theorem KeepsConfig.refl (a : App) : KeepsConfig a a := by simp [KeepsConfig]

theorem KeepsConfig.compose {a b c : App} (h1 : KeepsConfig a b) (h2 : KeepsConfig b c) :
    KeepsConfig a c := by
  obtain ⟨a1, a2, a3, a4, a5, a6, a7, a8, a9, a10, a11, a12⟩ := h1
  obtain ⟨b1, b2, b3, b4, b5, b6, b7, b8, b9, b10, b11, b12⟩ := h2
  simp [KeepsConfig, *]

theorem provide_keeps {W : Type} (E : Env W) (app : App) (c : Value) (s : Sys W) :
    KeepsConfig app (app.provide E c s).1 ∧ (app.provide E c s).1.children = app.children := by
  unfold App.provide
  cases app.err with
  | some e => simp [KeepsConfig]
  | none =>
    cases c <;> simp only [KeepsConfig] <;> first | (split <;> simp) | simp

theorem decorate_keeps {W : Type} (E : Env W) (app : App) (c : Value) (s : Sys W) :
    KeepsConfig app (app.decorate E c s).1 ∧
      (app.decorate E c s).1.children = app.children := by
  unfold App.decorate
  cases app.err with
  | some e => simp [KeepsConfig]
  | none =>
    cases c <;> simp only [KeepsConfig] <;> first | (split <;> simp) | simp

theorem provide_trace {W : Type} (E : Env W) (p : Event → Bool) (hp : SkipsRegistration p)
    (app : App) (c : Value) (s : Sys W) :
    (app.provide E c s).2.trace.filter p = s.trace.filter p := by
  unfold App.provide
  cases app.err with
  | some e => simp
  | none =>
    cases c <;> simp only [] <;> split <;> simp [List.filter_append, hp.1]

theorem decorate_trace {W : Type} (E : Env W) (p : Event → Bool) (hp : SkipsRegistration p)
    (app : App) (c : Value) (s : Sys W) :
    (app.decorate E c s).2.trace.filter p = s.trace.filter p := by
  unfold App.decorate
  cases app.err with
  | some e => simp
  | none =>
    cases c <;> simp only [] <;> split <;> simp [List.filter_append, hp.2]

theorem provideEach_keeps {W : Type} (E : Env W) :
    ∀ (ps : List Value) (app : App) (s : Sys W),
    KeepsConfig app (provideEach E ps app s).1 ∧
      (provideEach E ps app s).1.children = app.children
  | [], app, s => by simp [provideEach, KeepsConfig]
  | p :: rest, app, s => by
    have h1 := provide_keeps E app p s
    have h2 := provideEach_keeps E rest (app.provide E p s).1 (app.provide E p s).2
    exact ⟨by simpa [provideEach] using h1.1.compose h2.1, by simp [provideEach, h2.2, h1.2]⟩

theorem decorateEach_keeps {W : Type} (E : Env W) :
    ∀ (ds : List Value) (app : App) (s : Sys W),
    KeepsConfig app (decorateEach E ds app s).1 ∧
      (decorateEach E ds app s).1.children = app.children
  | [], app, s => by simp [decorateEach, KeepsConfig]
  | d :: rest, app, s => by
    have h1 := decorate_keeps E app d s
    have h2 := decorateEach_keeps E rest (app.decorate E d s).1 (app.decorate E d s).2
    exact ⟨by simpa [decorateEach] using h1.1.compose h2.1, by simp [decorateEach, h2.2, h1.2]⟩

theorem provideEach_trace {W : Type} (E : Env W) (p : Event → Bool)
    (hp : SkipsRegistration p) :
    ∀ (ps : List Value) (app : App) (s : Sys W),
    (provideEach E ps app s).2.trace.filter p = s.trace.filter p
  | [], app, s => by simp [provideEach]
  | c :: rest, app, s => by
    simp [provideEach, provideEach_trace E p hp rest, provide_trace E p hp]

theorem decorateEach_trace {W : Type} (E : Env W) (p : Event → Bool)
    (hp : SkipsRegistration p) :
    ∀ (ds : List Value) (app : App) (s : Sys W),
    (decorateEach E ds app s).2.trace.filter p = s.trace.filter p
  | [], app, s => by simp [decorateEach]
  | c :: rest, app, s => by
    simp [decorateEach, decorateEach_trace E p hp rest, decorate_trace E p hp]

theorem provideAll_keeps {W : Type} (E : Env W) (app : App) (s : Sys W) :
    KeepsConfig app (provideAll E app s).1 := by
  cases app
  simpa [provideAll, KeepsConfig] using (provideEach_keeps E _ _ s).1

theorem decorateAll_keeps {W : Type} (E : Env W) (app : App) (s : Sys W) :
    KeepsConfig app (decorateAll E app s).1 := by
  cases app
  simpa [decorateAll, KeepsConfig] using (decorateEach_keeps E _ _ s).1

mutual
theorem provideAll_trace {W : Type} (E : Env W) (p : Event → Bool)
    (hp : SkipsRegistration p) :
    ∀ (app : App) (s : Sys W), (provideAll E app s).2.trace.filter p = s.trace.filter p
  | ⟨err, container, lifecycle, provides, invokes, decorators, logger, startTimeout,
      stopTimeout, errorHooks, dones, children, parent, addr⟩, s => by
    simp [provideAll, provideAllChildren_trace E p hp children, provideEach_trace E p hp]
theorem provideAllChildren_trace {W : Type} (E : Env W) (p : Event → Bool)
    (hp : SkipsRegistration p) :
    ∀ (cs : List App) (s : Sys W),
    (provideAllChildren E cs s).2.trace.filter p = s.trace.filter p
  | [], s => by simp [provideAllChildren]
  | ca :: rest, s => by
    simp [provideAllChildren, provideAllChildren_trace E p hp rest, provideAll_trace E p hp ca]
end

mutual
theorem decorateAll_trace {W : Type} (E : Env W) (p : Event → Bool)
    (hp : SkipsRegistration p) :
    ∀ (app : App) (s : Sys W), (decorateAll E app s).2.trace.filter p = s.trace.filter p
  | ⟨err, container, lifecycle, provides, invokes, decorators, logger, startTimeout,
      stopTimeout, errorHooks, dones, children, parent, addr⟩, s => by
    simp [decorateAll, decorateAllChildren_trace E p hp children, decorateEach_trace E p hp]
theorem decorateAllChildren_trace {W : Type} (E : Env W) (p : Event → Bool)
    (hp : SkipsRegistration p) :
    ∀ (cs : List App) (s : Sys W),
    (decorateAllChildren E cs s).2.trace.filter p = s.trace.filter p
  | [], s => by simp [decorateAllChildren]
  | ca :: rest, s => by
    simp [decorateAllChildren, decorateAllChildren_trace E p hp rest,
      decorateAll_trace E p hp ca]
end

/-- After `decorateAll`, the root App has the configuration the options gave
it. -/
theorem configure_keeps {W : Type} (E : Env W) (opts : List FxOption) (w : W) :
    KeepsConfig (New.applied E opts w) (New.configure E opts w).1 := by
  unfold New.configure New.applied New.initial
  exact (provideAll_keeps E _ _).compose ((provide_keeps E _ _ _).1.compose
    ((provide_keeps E _ _ _).1.compose ((provide_keeps E _ _ _).1.compose
      (decorateAll_keeps E _ _))))

/-- Up to `decorateAll`, `New` calls nothing but `Provide` and `Decorate`. -/
theorem configure_trace {W : Type} (E : Env W) (p : Event → Bool) (hp : SkipsRegistration p)
    (opts : List FxOption) (w : W) :
    (New.configure E opts w).2.trace.filter p = [] := by
  unfold New.configure
  simp [decorateAll_trace E p hp, provide_trace E p hp, provideAll_trace E p hp]

theorem applied_registers {W : Type} (E : Env W) (opts : List FxOption) (w : W) :
    (New.applied E opts w).invokes = (registersAll opts).invokes ∧
    (New.applied E opts w).errorHooks = (registersAll opts).errorHooks := by
  have h := applyAll_extends E opts (New.initial E w)
    (E.digNew (E.lifecycleNew .fxlogNew w).2).2
  obtain ⟨h1, h2, h3, h4, h5, h6, h7, h8⟩ := h
  exact ⟨by simpa [New.applied, New.initial, New.app] using h2,
    by simpa [New.applied, New.initial, New.app] using h4⟩

theorem invoke_keeps {W : Type} (E : Env W) (cfg : App × Sys W) :
    KeepsConfig cfg.1 (New.invoke E cfg).1 ∧ (New.invoke E cfg).1.children = cfg.1.children := by
  unfold New.invoke
  cases h : cfg.1.err with
  | some e => simp [KeepsConfig]
  | none =>
    simp only []
    cases (cfg.1.executeInvokes E cfg.2).1 <;> simp [KeepsConfig]

/-- The invocations and error handlers of the App that `New` returns are the
ones its options register with the root. -/
theorem New_registers {W : Type} (E : Env W) (opts : List FxOption) (w : W) :
    (New E opts w).1.invokes = (registersAll opts).invokes ∧
    (New E opts w).1.errorHooks = (registersAll opts).errorHooks := by
  have h1 := (configure_keeps E opts w).compose (invoke_keeps E (New.configure E opts w)).1
  have h2 := applied_registers E opts w
  obtain ⟨a1, a2, a3, a4, a5, a6, a7, a8, a9, a10, a11, a12⟩ := h1
  exact ⟨by rw [New, a4, h2.1], by rw [New, a9, h2.2]⟩

theorem provideAllChildren_map {W : Type} {α : Type} (E : Env W) (g : App → α)
    (hg : ∀ a b, KeepsConfig a b → g b = g a) :
    ∀ (cs : List App) (s : Sys W), (provideAllChildren E cs s).1.map g = cs.map g
  | [], s => by simp [provideAllChildren]
  | ca :: rest, s => by
    simp [provideAllChildren, provideAllChildren_map E g hg rest,
      hg _ _ (provideAll_keeps E ca s)]

theorem decorateAllChildren_map {W : Type} {α : Type} (E : Env W) (g : App → α)
    (hg : ∀ a b, KeepsConfig a b → g b = g a) :
    ∀ (cs : List App) (s : Sys W), (decorateAllChildren E cs s).1.map g = cs.map g
  | [], s => by simp [decorateAllChildren]
  | ca :: rest, s => by
    simp [decorateAllChildren, decorateAllChildren_map E g hg rest,
      hg _ _ (decorateAll_keeps E ca s)]

theorem provideAll_children {W : Type} {α : Type} (E : Env W) (g : App → α)
    (hg : ∀ a b, KeepsConfig a b → g b = g a) (app : App) (s : Sys W) :
    (provideAll E app s).1.children.map g = app.children.map g := by
  cases app
  simpa [provideAll] using provideAllChildren_map E g hg _ _

theorem decorateAll_children {W : Type} {α : Type} (E : Env W) (g : App → α)
    (hg : ∀ a b, KeepsConfig a b → g b = g a) (app : App) (s : Sys W) :
    (decorateAll E app s).1.children.map g = app.children.map g := by
  cases app
  simpa [decorateAll] using decorateAllChildren_map E g hg _ _

/-- The children of the App that `New` returns have the configuration the
options gave them. -/
theorem New_children {W : Type} {α : Type} (E : Env W) (g : App → α)
    (hg : ∀ a b, KeepsConfig a b → g b = g a) (opts : List FxOption) (w : W) :
    (New E opts w).1.children.map g = (New.applied E opts w).children.map g := by
  rw [New, (invoke_keeps E _).2]
  unfold New.configure New.applied New.initial
  rw [decorateAll_children E g hg, (provide_keeps E _ _ _).2, (provide_keeps E _ _ _).2,
    (provide_keeps E _ _ _).2, provideAll_children E g hg]

/-- C4: the invocations of the `Invoke` options that are direct members of a
module given to `New` are in the invocation list of the root App, after the
invocations the options before the module register and before those of the
options after it; `New(Invoke(f1), Module(n, Invoke(f2)), Invoke(f3))` has the
root list `[f1, f2, f3]` and one child, whose list is empty. -/
theorem module_invokes_land_in_root {W : Type} (E : Env W) (w : W) (pre post ms : List FxOption)
    (name n : String) (f1 f2 f3 : Value) :
    (New E (pre ++ Module name ms :: post) w).1.invokes =
      (New E pre w).1.invokes ++ directInvokes ms ++ (registersAll post).invokes ∧
    (New E pre w).1.invokes = (registersAll pre).invokes ∧
    (New E [Invoke [f1], Module n [Invoke [f2]], Invoke [f3]] w).1.invokes = [f1, f2, f3] ∧
    (New E [Invoke [f1], Module n [Invoke [f2]], Invoke [f3]] w).1.children.map
      (fun ca => ca.invokes) = [[]] := by
  refine ⟨?_, (New_registers E pre w).1, ?_, ?_⟩
  · rw [(New_registers E _ w).1, (New_registers E pre w).1, registersAll_append]
    simp [registersAll, Registered.append, Module, FxOption.registers]
  · rw [(New_registers E _ w).1]
    simp [registersAll, Registered.append, Module, Invoke, FxOption.registers, directInvokes,
      Registered.empty]
  · rw [New_children E (fun ca => ca.invokes) (fun a b h => h.2.2.2.1)]
    simp [New.applied, applyAll, FxOption.apply, applyMembers, Module, Invoke,
      FxOption.routedToParent, newChild, New.initial, New.app]

/-- C7: the error handlers of the App are those its options register with the
root.  If no error is recorded when `decorateAll` returns and the invocations
fail with `e` (the invocations before some `fn` succeed and `fn` fails with
`e`), `New` then runs `HandleError` of each handler once, in order, each on
the state the one before left, with one error `e2`: `e` itself, or
`errorWithGraph` around `e` when `dig.CanVisualizeError(e)`, whose message is
that of `e`.  In the other cases, an error recorded before the invocations or
all invocations succeeding, `New` runs no handler and ends in the state it had
then. -/
theorem new_error_handlers {W : Type} (E : Env W) (opts : List FxOption) (w : W) :
    (New E opts w).1.errorHooks = (registersAll opts).errorHooks ∧
    (((New.configure E opts w).1.err = none ∧
      ∃ e e2 pre fn post s1,
        ((New.configure E opts w).1.executeInvokes E (New.configure E opts w).2).1 = some e ∧
        (New.configure E opts w).1.invokes = pre ++ fn :: post ∧
        AllSucceed E (New.configure E opts w).1.container pre (New.configure E opts w).2 s1 ∧
        FailsWith E (New.configure E opts w).1.container fn s1 e
          ((New.configure E opts w).1.executeInvokes E (New.configure E opts w).2).2 ∧
        e2 = (if E.digCanVisualizeError e then
            GoError.withGraph (E.digVisualize (New.configure E opts w).1.container e
              ((New.configure E opts w).1.executeInvokes E (New.configure E opts w).2).2.world) e
          else e) ∧
        e2.Error = e.Error ∧
        (New E opts w).2.world =
          (New E opts w).1.errorHooks.foldl (fun u eh => E.handleError eh e2 u)
            ((New.configure E opts w).1.executeInvokes E (New.configure E opts w).2).2.world ∧
        (New E opts w).2.trace =
          ((New.configure E opts w).1.executeInvokes E (New.configure E opts w).2).2.trace ++
            (New E opts w).1.errorHooks.map (fun eh => Event.handleError eh e2) ∧
        (New E opts w).2.trace.filter Event.isHandleError =
          (New E opts w).1.errorHooks.map (fun eh => Event.handleError eh e2)) ∨
     ((((New.configure E opts w).1.err.isSome = true ∧
          (New E opts w).2 = (New.configure E opts w).2) ∨
        ((New.configure E opts w).1.err = none ∧
          ((New.configure E opts w).1.executeInvokes E (New.configure E opts w).2).1 = none ∧
          AllSucceed E (New.configure E opts w).1.container (New.configure E opts w).1.invokes
            (New.configure E opts w).2
            ((New.configure E opts w).1.executeInvokes E (New.configure E opts w).2).2 ∧
          (New E opts w).2 =
            ((New.configure E opts w).1.executeInvokes E (New.configure E opts w).2).2)) ∧
      (New E opts w).2.trace.filter Event.isHandleError = [])) := by
  have hp : SkipsRegistration Event.isHandleError := ⟨fun _ _ _ => rfl, fun _ _ _ => rfl⟩
  have hc := configure_trace E Event.isHandleError hp opts w
  have hx := executeInvokesFrom_trace E (New.configure E opts w).1.container
    Event.isHandleError (fun _ _ => rfl) (New.configure E opts w).1.invokes
    (New.configure E opts w).2
  rw [hc] at hx
  have hk := (invoke_keeps E (New.configure E opts w)).1
  have hd := executeInvokesFrom_cases E (New.configure E opts w).1.container
    (New.configure E opts w).1.invokes (New.configure E opts w).2
  refine ⟨(New_registers E opts w).2, ?_⟩
  have hh : (New E opts w).1.errorHooks = (New.configure E opts w).1.errorHooks :=
    hk.2.2.2.2.2.2.2.2.1
  rw [hh]
  simp only [New, New.invoke]
  cases h : (New.configure E opts w).1.err with
  | some e0 => exact Or.inr ⟨Or.inl ⟨rfl, rfl⟩, by simpa using hc⟩
  | none =>
    simp only []
    cases h2 : ((New.configure E opts w).1.executeInvokes E (New.configure E opts w).2).1 with
    | none =>
      have hall : AllSucceed E (New.configure E opts w).1.container
          (New.configure E opts w).1.invokes (New.configure E opts w).2
          ((New.configure E opts w).1.executeInvokes E (New.configure E opts w).2).2 := by
        rcases hd with ⟨s2, d1, d2, _⟩ | ⟨pre, fn, post, s1, e, s2, _, _, _, _, d5, _⟩
        · simpa [App.executeInvokes, d2] using d1
        · simp [App.executeInvokes, d5] at h2
      exact Or.inr ⟨Or.inr ⟨by simp, by simp, hall, rfl⟩,
        by simpa [App.executeInvokes] using hx⟩
    | some e =>
      obtain ⟨pre, fn, post, s1, hsplit, hpre, hfn⟩ :
          ∃ pre fn post s1, (New.configure E opts w).1.invokes = pre ++ fn :: post ∧
            AllSucceed E (New.configure E opts w).1.container pre (New.configure E opts w).2 s1 ∧
            FailsWith E (New.configure E opts w).1.container fn s1 e
              ((New.configure E opts w).1.executeInvokes E (New.configure E opts w).2).2 := by
        rcases hd with ⟨s2, _, d2, _⟩ | ⟨pre, fn, post, s1, e1, s2, d1, d2, _, d4, d5, _⟩
        · simp [App.executeInvokes, d2] at h2
        · have he : e1 = e := by simpa [App.executeInvokes, d5] using h2
          subst he
          exact ⟨pre, fn, post, s1, d1, d2, by simpa [App.executeInvokes, d5] using d4⟩
      refine Or.inl ⟨by simp, e, _, pre, fn, post, s1, by simp, hsplit, hpre, hfn, rfl, ?_,
        HandleError_world E _ _ _, HandleError_trace E _ _ _, ?_⟩
      · split <;> rfl
      · rw [HandleError_trace, List.filter_append]
        simp only [App.executeInvokes] at *
        rw [hx]
        simp [List.filter_map, Function.comp_def, Event.isHandleError]

/-- C5 fails on the code: for `New(Module("a", Module("b", Invoke(f))))` the
invocation `f` is in the list of the child `a`, not in the list of the root,
and `New` does not call it; one level up, for `New(Module("a", Invoke(f)))`,
it is in the list of the root. -/
theorem nested_module_invoke_not_run {W : Type} (E : Env W) (w : W) (f : Value) :
    (New E [Module "a" [Module "b" [Invoke [f]]]] w).1.invokes = [] ∧
    (New E [Module "a" [Module "b" [Invoke [f]]]] w).1.children.map
      (fun ca => ca.invokes) = [[f]] ∧
    (New E [Module "a" [Module "b" [Invoke [f]]]] w).2.trace.filter Event.isInvoke = [] ∧
    (New E [Module "a" [Invoke [f]]] w).1.invokes = [f] := by
  have hp : SkipsRegistration Event.isInvoke := ⟨fun _ _ _ => rfl, fun _ _ _ => rfl⟩
  have hc := configure_trace E Event.isInvoke hp [Module "a" [Module "b" [Invoke [f]]]] w
  have hi : (New.configure E [Module "a" [Module "b" [Invoke [f]]]] w).1.invokes = [] := by
    rw [(configure_keeps E _ w).2.2.2.1, (applied_registers E _ w).1]
    simp [registersAll, Registered.append, Module, Invoke, FxOption.registers, directInvokes,
      Registered.empty]
  refine ⟨?_, ?_, ?_, ?_⟩
  · rw [(New_registers E _ w).1]
    simp [registersAll, Registered.append, Module, Invoke, FxOption.registers, directInvokes,
      Registered.empty]
  · rw [New_children E (fun ca => ca.invokes) (fun a b h => h.2.2.2.1)]
    simp [New.applied, applyAll, FxOption.apply, applyMembers, Module, Invoke,
      FxOption.routedToParent, newChild, New.initial, New.app]
  · simp only [New, New.invoke]
    cases h : (New.configure E [Module "a" [Module "b" [Invoke [f]]]] w).1.err with
    | some e0 => simpa using hc
    | none => simpa [App.executeInvokes, hi, executeInvokesFrom] using hc
  · rw [(New_registers E _ w).1]
    simp [registersAll, Registered.append, Module, Invoke, FxOption.registers, directInvokes,
      Registered.empty]

/-- C9 fails on the code: for `New(Error(e), Module("m", Provide(c)))`, with
`c` a function, `Err()` is `e` and yet `c` is handed to `Provide` of the
container of the child: the call is the whole record of calls.  For
`New(Error(e), Provide(c))` nothing is called. -/
theorem error_option_module_provide_applied {W : Type} (E : Env W) (w : W) (e : GoError)
    (c : Nat) :
    (New E [Error [some e], Module "m" [Provide [.func c [.other 0]]]] w).1.Err = some e ∧
    (New E [Error [some e], Module "m" [Provide [.func c [.other 0]]]] w).2.trace =
      [.provide (E.digChild (E.digNew (E.lifecycleNew .fxlogNew w).2).1 "m"
        (E.digNew (E.lifecycleNew .fxlogNew w).2).2).1 (.func c [.other 0]) []] ∧
    (New E [Error [some e], Provide [.func c [.other 0]]] w).2.trace = [] := by
  refine ⟨?_, ?_, ?_⟩ <;>
    simp [New, New.configure, New.invoke, applyAll, FxOption.apply, applyMembers, Module, Error,
      Provide, FxOption.routedToParent, newChild, New.app, OptionFunc.apply, multierrAppend,
      multierrCombine, provideAll, provideAllChildren, provideEach, App.provide, decorateAll,
      decorateAllChildren, decorateEach, Value.returnsAnnotated, App.Err]

/-- C10 fails on the code: when a constructor of a module cannot be registered
(an `Option` value, or an `Annotated` with both name and group), the error is
recorded on the child only: `Err()` of the App that `New` returns is nil and
the invocation is called.  At the root the same constructor makes `Err()`
non-nil and the invocation is not called. -/
theorem module_provide_failure_lost :
    (New okEnv [Module "m" [Provide [.option 7]], Invoke [.func 1 []]] 0).1.Err = none ∧
    (New okEnv [Module "m" [Provide [.option 7]], Invoke [.func 1 []]] 0).1.children.map
      (fun ca => ca.err.isSome) = [true] ∧
    (New okEnv [Module "m" [Provide [.option 7]], Invoke [.func 1 []]] 0).2.trace.filter
      Event.isInvoke = [.invoke 1 (.func 1 [])] ∧
    (New okEnv [Module "m" [Provide [.annotated "n" "g" (.func 2 [.other 0])]],
      Invoke [.func 1 []]] 0).1.Err = none ∧
    (New okEnv [Module "m" [Provide [.annotated "n" "g" (.func 2 [.other 0])]],
      Invoke [.func 1 []]] 0).2.trace.filter Event.isInvoke = [.invoke 1 (.func 1 [])] ∧
    (New okEnv [Provide [.option 7], Invoke [.func 1 []]] 0).1.Err.isSome = true ∧
    (New okEnv [Provide [.option 7], Invoke [.func 1 []]] 0).2.trace.filter
      Event.isInvoke = [] := by
  decide

/-! ## Options inside a module -/

/-- C11 fails on the code for `WithLogger`: applied to an App `a`,
`Module("m", WithLogger(z))` leaves `a.logger` and `a.lifecycle` as they were
and sets the logger and the lifecycle of the child, whereas
`Module("m", Logger(p))` sets those of `a` and leaves the child with the
logger `a` had and no lifecycle; `StartTimeout(v)` and `StopTimeout(v)` in a
module set the timeout of `a` and leave that of the child zero. -/
theorem withLogger_in_module_hits_child {W : Type} (E : Env W) (a : App) (w : W)
    (z p : Nat) (v : Duration) :
    ((Module "m" [WithLogger z]).apply E a w).1.logger = a.logger ∧
    ((Module "m" [WithLogger z]).apply E a w).1.lifecycle = a.lifecycle ∧
    ((Module "m" [WithLogger z]).apply E a w).1.children.map
        (fun ca => (ca.logger, ca.lifecycle)) =
      a.children.map (fun ca => (ca.logger, ca.lifecycle)) ++
        [(NewCustomLogger z,
          some (E.lifecycleNew (NewCustomLogger z) (E.digChild a.container "m" w).2).1)] ∧
    ((Module "m" [Logger p]).apply E a w).1.logger = .printer p ∧
    ((Module "m" [Logger p]).apply E a w).1.lifecycle =
      some (E.lifecycleNew (.printer p) (E.digChild a.container "m" w).2).1 ∧
    ((Module "m" [Logger p]).apply E a w).1.children.map
        (fun ca => (ca.logger, ca.lifecycle)) =
      a.children.map (fun ca => (ca.logger, ca.lifecycle)) ++ [(a.logger, none)] ∧
    ((Module "m" [StartTimeout v]).apply E a w).1.startTimeout = v ∧
    ((Module "m" [StartTimeout v]).apply E a w).1.children.map (fun ca => ca.startTimeout) =
      a.children.map (fun ca => ca.startTimeout) ++ [0] ∧
    ((Module "m" [StopTimeout v]).apply E a w).1.stopTimeout = v ∧
    ((Module "m" [StopTimeout v]).apply E a w).1.children.map (fun ca => ca.stopTimeout) =
      a.children.map (fun ca => ca.stopTimeout) ++ [0] := by
  refine ⟨?_, ?_, ?_, ?_, ?_, ?_, ?_, ?_, ?_, ?_⟩ <;>
    simp [Module, WithLogger, Logger, StartTimeout, StopTimeout, FxOption.apply, applyMembers,
      FxOption.routedToParent, OptionFunc.apply, newChild, set_length_append]

theorem applyAll_append {W : Type} (E : Env W) :
    ∀ (xs ys : List FxOption) (a : App) (w : W),
    applyAll E (xs ++ ys) a w = applyAll E ys (applyAll E xs a w).1 (applyAll E xs a w).2
  | [], ys, a, w => by simp [applyAll]
  | x :: xs, ys, a, w => by
    simpa [applyAll] using applyAll_append E xs ys (x.apply E a w).1 (x.apply E a w).2

/-- When the options register no invocation with the root, `New` calls none. -/
theorem New_calls_no_invoke {W : Type} (E : Env W) (opts : List FxOption) (w : W)
    (h : (registersAll opts).invokes = []) :
    (New E opts w).2.trace.filter Event.isInvoke = [] := by
  have hp : SkipsRegistration Event.isInvoke := ⟨fun _ _ _ => rfl, fun _ _ _ => rfl⟩
  have hc := configure_trace E Event.isInvoke hp opts w
  have hi : (New.configure E opts w).1.invokes = [] := by
    rw [(configure_keeps E _ w).2.2.2.1, (applied_registers E _ w).1, h]
  simp only [New, New.invoke]
  cases h2 : (New.configure E opts w).1.err with
  | some e0 => simpa using hc
  | none => simpa [App.executeInvokes, hi, executeInvokesFrom] using hc

/-- C16 holds at the top level and fails inside a module: `Options(os...)` in
the list of `New`, or in any list applied to an App, has the effect of `os`
listed at its place; but for `New(Module("m", Options(Invoke(f))))` the
invocation `f` is in the list of the child and is never called, while for
`New(Module("m", Invoke(f)))` it is in the list of the root. -/
theorem options_in_module_not_transparent {W : Type} (E : Env W) (w : W) (f : Value)
    (pre os post : List FxOption) (a : App) :
    applyAll E (pre ++ Options os :: post) a w = applyAll E (pre ++ os ++ post) a w ∧
    New E (pre ++ Options os :: post) w = New E (pre ++ os ++ post) w ∧
    (New E [Module "m" [Options [Invoke [f]]]] w).1.invokes = [] ∧
    (New E [Module "m" [Invoke [f]]] w).1.invokes = [f] ∧
    (New E [Module "m" [Options [Invoke [f]]]] w).1.children.map (fun ca => ca.invokes)
      = [[f]] ∧
    (New E [Module "m" [Invoke [f]]] w).1.children.map (fun ca => ca.invokes) = [[]] ∧
    (New E [Module "m" [Options [Invoke [f]]]] w).2.trace.filter Event.isInvoke = [] := by
  have h1 : ∀ (b : App) (u : W),
      applyAll E (pre ++ Options os :: post) b u = applyAll E (pre ++ os ++ post) b u := by
    intro b u
    rw [applyAll_append, List.append_assoc, applyAll_append E pre, applyAll_append E os]
    simp [applyAll, Options, FxOption.apply]
  refine ⟨h1 a w, ?_, ?_, ?_, ?_, ?_, ?_⟩
  · simp only [New, New.configure, h1]
  · rw [(New_registers E _ w).1]
    simp [registersAll, Registered.append, Module, Invoke, Options, FxOption.registers,
      directInvokes, Registered.empty]
  · rw [(New_registers E _ w).1]
    simp [registersAll, Registered.append, Module, Invoke, FxOption.registers, directInvokes,
      Registered.empty]
  · rw [New_children E (fun ca => ca.invokes) (fun a b h => h.2.2.2.1)]
    simp [New.applied, applyAll, FxOption.apply, applyMembers, Module, Invoke, Options,
      FxOption.routedToParent, newChild, New.initial, New.app]
  · rw [New_children E (fun ca => ca.invokes) (fun a b h => h.2.2.2.1)]
    simp [New.applied, applyAll, FxOption.apply, applyMembers, Module, Invoke,
      FxOption.routedToParent, newChild, New.initial, New.app]
  · apply New_calls_no_invoke
    simp [registersAll, Registered.append, Module, Invoke, Options, FxOption.registers,
      directInvokes, Registered.empty]

/-! ## Rollback context -/

theorem optionFunc_apply_timeouts {W : Type} (E : Env W) (f : OptionFunc) (a : App) (w : W)
    (h : (FxOption.optionFunc f).hasTimeout = false) :
    (f.apply E a w).1.startTimeout = a.startTimeout ∧
    (f.apply E a w).1.stopTimeout = a.stopTimeout := by
  cases f <;> simp_all [OptionFunc.apply, FxOption.hasTimeout]

theorem applyMembers_timeouts {W : Type} (E : Env W) :
    ∀ (ms : List FxOption) (a ca : App) (w : W), hasTimeoutAny ms = false →
    (applyMembers E ms a ca w).1.startTimeout = a.startTimeout ∧
    (applyMembers E ms a ca w).1.stopTimeout = a.stopTimeout
  | [], a, ca, w, _ => by simp [applyMembers]
  | opt :: rest, a, ca, w, h => by
    simp only [hasTimeoutAny, Bool.or_eq_false_iff] at h
    cases opt with
    | invokeOption io =>
      simpa [applyMembers, FxOption.routedToParent, FxOption.apply] using
        applyMembers_timeouts E rest { a with invokes := a.invokes ++ io } ca w h.2
    | errorHookOption eho =>
      simpa [applyMembers, FxOption.routedToParent, FxOption.apply] using
        applyMembers_timeouts E rest { a with errorHooks := a.errorHooks ++ eho } ca w h.2
    | optionFunc f =>
      have h0 := optionFunc_apply_timeouts E f a w h.1
      have ih := applyMembers_timeouts E rest (f.apply E a w).1 ca (f.apply E a w).2 h.2
      simp only [applyMembers, FxOption.routedToParent, FxOption.apply, if_true]
      exact ⟨ih.1.trans h0.1, ih.2.trans h0.2⟩
    | provideOption po =>
      simpa [applyMembers, FxOption.routedToParent] using
        applyMembers_timeouts E rest a _ _ h.2
    | optionGroup og =>
      simpa [applyMembers, FxOption.routedToParent] using
        applyMembers_timeouts E rest a _ _ h.2
    | withLoggerOption l =>
      simpa [applyMembers, FxOption.routedToParent] using
        applyMembers_timeouts E rest a _ _ h.2
    | decorateOption d =>
      simpa [applyMembers, FxOption.routedToParent] using
        applyMembers_timeouts E rest a _ _ h.2
    | moduleOption n ms =>
      simpa [applyMembers, FxOption.routedToParent] using
        applyMembers_timeouts E rest a _ _ h.2

mutual
theorem apply_timeouts {W : Type} (E : Env W) :
    ∀ (opt : FxOption) (a : App) (w : W), opt.hasTimeout = false →
    (opt.apply E a w).1.startTimeout = a.startTimeout ∧
    (opt.apply E a w).1.stopTimeout = a.stopTimeout
  | .provideOption po, a, w, _ => by simp [FxOption.apply]
  | .invokeOption io, a, w, _ => by simp [FxOption.apply]
  | .errorHookOption eho, a, w, _ => by simp [FxOption.apply]
  | .decorateOption d, a, w, _ => by simp [FxOption.apply]
  | .withLoggerOption l, a, w, _ => by simp [FxOption.apply]
  | .optionFunc f, a, w, h => by
    simpa [FxOption.apply] using optionFunc_apply_timeouts E f a w h
  | .optionGroup og, a, w, h => by
    simpa [FxOption.apply] using applyAll_timeouts E og a w (by simpa [FxOption.hasTimeout] using h)
  | .moduleOption name ms, a, w, h => by
    have h2 := applyMembers_timeouts E ms { a with children := a.children ++ [newChild a
      (E.digChild a.container name w).1] } (newChild a (E.digChild a.container name w).1)
      (E.digChild a.container name w).2 (by simpa [FxOption.hasTimeout] using h)
    simpa [FxOption.apply] using h2
theorem applyAll_timeouts {W : Type} (E : Env W) :
    ∀ (opts : List FxOption) (a : App) (w : W), hasTimeoutAny opts = false →
    (applyAll E opts a w).1.startTimeout = a.startTimeout ∧
    (applyAll E opts a w).1.stopTimeout = a.stopTimeout
  | [], a, w, _ => by simp [applyAll]
  | opt :: rest, a, w, h => by
    simp only [hasTimeoutAny, Bool.or_eq_false_iff] at h
    have h1 := apply_timeouts E opt a w h.1
    have h2 := applyAll_timeouts E rest (opt.apply E a w).1 (opt.apply E a w).2 h.2
    exact ⟨by simpa [applyAll] using h2.1.trans h1.1, by simpa [applyAll] using h2.2.trans h1.2⟩
end

theorem New_timeouts {W : Type} (E : Env W) (opts : List FxOption) (w : W) :
    (New E opts w).1.startTimeout = (New.applied E opts w).startTimeout ∧
    (New E opts w).1.stopTimeout = (New.applied E opts w).stopTimeout := by
  have h := (configure_keeps E opts w).compose (invoke_keeps E (New.configure E opts w)).1
  exact ⟨h.2.2.2.2.2.2.1, h.2.2.2.2.2.2.2.1⟩

/-- C13: when no option of the list is, or contains, a `StartTimeout` or a
`StopTimeout`, the App that `New` returns has `StartTimeout()` and
`StopTimeout()` equal to `DefaultTimeout`, 15 seconds.  Applying
`StartTimeout(v)` to an App makes `StartTimeout()` equal to `v` and leaves
`StopTimeout()` as it was, and the other way round for `StopTimeout(v)`; so
it is for `New` when the option comes last. -/
theorem default_timeouts {W : Type} (E : Env W) (opts : List FxOption) (w : W) (a : App)
    (u : W) (v : Duration) (h : hasTimeoutAny opts = false) :
    (New E opts w).1.StartTimeout = DefaultTimeout ∧
    (New E opts w).1.StopTimeout = DefaultTimeout ∧
    DefaultTimeout = 15 * 1000000000 ∧
    ((StartTimeout v).apply E a u).1.StartTimeout = v ∧
    ((StartTimeout v).apply E a u).1.StopTimeout = a.StopTimeout ∧
    ((StopTimeout v).apply E a u).1.StopTimeout = v ∧
    ((StopTimeout v).apply E a u).1.StartTimeout = a.StartTimeout ∧
    (New E (opts ++ [StartTimeout v]) w).1.StartTimeout = v ∧
    (New E (opts ++ [StartTimeout v]) w).1.StopTimeout = DefaultTimeout ∧
    (New E (opts ++ [StopTimeout v]) w).1.StopTimeout = v ∧
    (New E (opts ++ [StopTimeout v]) w).1.StartTimeout = DefaultTimeout := by
  have h1 := applyAll_timeouts E opts (New.initial E w)
    (E.digNew (E.lifecycleNew .fxlogNew w).2).2 h
  have h2 := New_timeouts E opts w
  have h3 := New_timeouts E (opts ++ [StartTimeout v]) w
  have h4 := New_timeouts E (opts ++ [StopTimeout v]) w
  have hi : (New.initial E w).startTimeout = DefaultTimeout ∧
      (New.initial E w).stopTimeout = DefaultTimeout := ⟨rfl, rfl⟩
  refine ⟨?_, ?_, rfl, rfl, rfl, rfl, rfl, ?_, ?_, ?_, ?_⟩
  · rw [App.StartTimeout, h2.1, New.applied, h1.1, hi.1]
  · rw [App.StopTimeout, h2.2, New.applied, h1.2, hi.2]
  · rw [App.StartTimeout, h3.1, New.applied, applyAll_append]
    simp [applyAll, StartTimeout, FxOption.apply, OptionFunc.apply]
  · rw [App.StopTimeout, h3.2, New.applied, applyAll_append]
    simp [applyAll, StartTimeout, FxOption.apply, OptionFunc.apply, h1.2, hi.2]
  · rw [App.StopTimeout, h4.2, New.applied, applyAll_append]
    simp [applyAll, StopTimeout, FxOption.apply, OptionFunc.apply]
  · rw [App.StartTimeout, h4.1, New.applied, applyAll_append]
    simp [applyAll, StopTimeout, FxOption.apply, OptionFunc.apply, h1.1, hi.1]

/-- C13, an instance: a list with `Provide`, and a module holding `Invoke` and
`Logger`. -/
theorem default_timeouts_witness :
    hasTimeoutAny [Provide [.func 1 [.other 0]], Module "m" [Invoke [.func 2 []], Logger 3]]
      = false ∧
    (New okEnv [Provide [.func 1 [.other 0]], Module "m" [Invoke [.func 2 []], Logger 3]]
      0).1.StartTimeout = DefaultTimeout ∧
    (New okEnv [Provide [.func 1 [.other 0]], Module "m" [Invoke [.func 2 []], Logger 3]]
      0).1.StopTimeout = DefaultTimeout :=
  ⟨by decide, (default_timeouts okEnv
    [Provide [.func 1 [.other 0]], Module "m" [Invoke [.func 2 []], Logger 3]] 0
    (New.app 1 0) 0 5 (by decide)).1, (default_timeouts okEnv
    [Provide [.func 1 [.other 0]], Module "m" [Invoke [.func 2 []], Logger 3]] 0
    (New.app 1 0) 0 5 (by decide)).2.1⟩

/-! ## Done channels -/

/-- C15: `Done` returns a channel of capacity 1, the one `make` gave it, and
the App it leaves is the App it got with that one channel appended to
`dones`; the channel is not among those registered before, which stay in
front in their order.  So it is for `Run`, which calls `Done` once.  The other
operations that change an App (applying an option, `provide`, `decorate`,
`provideAll`, `decorateAll`, the invocation part of `New`) leave `dones` as it
is; `Start`, `Stop`, `run` and `executeInvokes` do not change the App. -/
theorem done_appends_channel {W : Type} (E : Env W) (app : App) (id : Nat) (s : Sys W)
    (opt : FxOption) (c : Value) (w : W) (selStart selStop : Select) (sig : Option Signal)
    (hnew : ∀ d ∈ app.dones, d.id ≠ id) :
    (app.Done id s).1 = { id := id, cap := 1 } ∧
    (app.Done id s).2.1 = { app with dones := app.dones ++ [(app.Done id s).1] } ∧
    (app.Done id s).1 ∉ app.dones ∧
    (app.Done id s).2.1.dones.take app.dones.length = app.dones ∧
    (app.Run E id selStart selStop sig s).1.dones = app.dones ++ [{ id := id, cap := 1 }] ∧
    (opt.apply E app w).1.dones = app.dones ∧
    (app.provide E c s).1.dones = app.dones ∧
    (app.decorate E c s).1.dones = app.dones ∧
    (provideAll E app s).1.dones = app.dones ∧
    (decorateAll E app s).1.dones = app.dones ∧
    (New.invoke E (app, s)).1.dones = app.dones := by
  refine ⟨rfl, rfl, ?_, ?_, rfl, (apply_extends E opt app w).2.2.2.2.2.2.2,
    (provide_keeps E app c s).1.2.2.2.2.2.2.2.2.2.1,
    (decorate_keeps E app c s).1.2.2.2.2.2.2.2.2.2.1,
    (provideAll_keeps E app s).2.2.2.2.2.2.2.2.2.1,
    (decorateAll_keeps E app s).2.2.2.2.2.2.2.2.2.1,
    (invoke_keeps E (app, s)).1.2.2.2.2.2.2.2.2.2.1⟩
  · intro hmem
    exact hnew _ hmem rfl
  · simp [App.Done]

/-- C15, an instance: a second call of `Done`, after the channel 7, with the
channel 8. -/
theorem done_appends_channel_witness :
    (∀ d ∈ ((New.app 1 0).Done 7 (⟨2, []⟩ : Sys Nat)).2.1.dones, d.id ≠ 8) ∧
    ((((New.app 1 0).Done 7 (⟨2, []⟩ : Sys Nat)).2.1).Done 8 (⟨2, []⟩ : Sys Nat)).2.1.dones
      = [⟨7, 1⟩, ⟨8, 1⟩] :=
  ⟨by decide, congrArg App.dones (done_appends_channel okEnv
    ((New.app 1 0).Done 7 (⟨2, []⟩ : Sys Nat)).2.1 8 ⟨2, []⟩ (Invoke []) .dotGraph 0
    .result .result none (by decide)).2.1⟩

end Fx
